import Mathlib

/-!
# The `delete` command of the container runtime (`src/delete.go`)

A shallow embedding of `deleteCommand.Action`, `delete` and `removeCgroupsPath`.

The functions that `delete.go` calls but does not define (`validContainer`,
`vc.StatusPod`, `oci.StatusToOCIState`, `processRunning`, `vc.StopPod`,
`oci.PodToOCIConfig`, `vc.DeletePod`, `processCgroupsPath`, `os.RemoveAll`,
`fmt.Errorf`) are taken as parameters, bundled in `Collaborators`.  Each of
them may read and change an explicit world state `σ` and either returns a value
or an error.  Every call is recorded, with its outcome, in a call trace, so that
statements about which collaborator was (not) called, and in which order, can be
made about the embedded code.
-/

namespace Runtime

/-- The external calls made by `delete.go`, with the arguments that are visible
in the embedding. -/
inductive Call where
  | validContainer (containerID : String)
  | StatusPod (containerID : String)
  | StatusToOCIState
  | processRunning (pid : Int)
  | StopPod (containerID : String)
  | PodToOCIConfig
  | DeletePod (containerID : String)
  | processCgroupsPath
  | RemoveAll (path : String)
  | Info (msg : String)
  deriving DecidableEq, Repr

/-- One entry of the call trace: the call made and whether it returned a
non-nil error. -/
structure Event where
  call : Call
  failed : Bool
  deriving DecidableEq, Repr

/-- Outcome of running a piece of the program from a world state: the Go return
value (`Except.error e` for a non-nil `error`), the world state reached and the
calls made, oldest first. -/
structure Outcome (σ ε α : Type) where
  ret : Except ε α
  world : σ
  trace : List Event

/-- A piece of the program: a function from the world state to an outcome. -/
def Op (σ ε α : Type) : Type := σ → Outcome σ ε α

/-- Returning a value makes no call and leaves the world alone. -/
def Op.ret {σ ε α : Type} (a : α) : Op σ ε α :=
  fun w => ⟨.ok a, w, []⟩

/-- The Go statement `return err`: stops with the error. -/
def Op.fail {σ ε α : Type} (e : ε) : Op σ ε α :=
  fun w => ⟨.error e, w, []⟩

/-- Sequencing with Go's `if err != nil { return err }`: when the first part
returns an error the rest is not run. -/
def Op.andThen {σ ε α β : Type} (m : Op σ ε α) (f : α → Op σ ε β) : Op σ ε β :=
  fun w =>
    match m w with
    | ⟨.error e, w1, t1⟩ => ⟨.error e, w1, t1⟩
    | ⟨.ok a, w1, t1⟩ =>
      match f a w1 with
      | ⟨r, w2, t2⟩ => ⟨r, w2, t1 ++ t2⟩

instance {σ ε : Type} : Monad (Op σ ε) where
  pure := Op.ret
  bind := Op.andThen

/-- A call of a collaborator: runs it on the world and records the call and
whether it failed. -/
def Op.call {σ ε α : Type} (c : Call) (f : σ → Except ε α × σ) : Op σ ε α :=
  fun w =>
    match f w with
    | (.ok a, w1) => ⟨.ok a, w1, [⟨c, false⟩]⟩
    | (.error e, w1) => ⟨.error e, w1, [⟨c, true⟩]⟩

/-- The functions used by `delete.go` that are defined elsewhere.  `PodStatus`,
`State`, `Pod` and `Spec` stand for `vc.PodStatus`, `specs.State`, `vc.Pod` and
the OCI configuration type; `Pid` is the field `state.Pid`. -/
structure Collaborators (σ ε PodStatus State Pod Spec : Type) where
  validContainer : String → σ → Except ε Unit × σ
  StatusPod : String → σ → Except ε PodStatus × σ
  StatusToOCIState : PodStatus → σ → Except ε State × σ
  Pid : State → Int
  processRunning : Int → σ → Except ε Bool × σ
  StopPod : String → σ → Except ε Pod × σ
  PodToOCIConfig : Pod → σ → Except ε Spec × σ
  DeletePod : String → σ → Except ε Pod × σ
  processCgroupsPath : Spec → σ → Except ε (List String) × σ
  RemoveAll : String → σ → Except ε Unit × σ
  Errorf : String → ε

section Program

variable {σ ε PodStatus State Pod Spec : Type}

/-- The loop `for _, cgroupsPath := range cgroupsPathList` of
`removeCgroupsPath` (lines 126-132). -/
def removeLoop (env : Collaborators σ ε PodStatus State Pod Spec) :
    List String → Op σ ε Unit
  | [] => pure ()
  | cgroupsPath :: rest => do
    Op.call (.RemoveAll cgroupsPath) (env.RemoveAll cgroupsPath)
    removeLoop env rest

/-- `removeCgroupsPath` (lines 120-133). -/
def removeCgroupsPath (env : Collaborators σ ε PodStatus State Pod Spec)
    (cgroupsPathList : List String) : Op σ ε Unit :=
  if cgroupsPathList.length = 0 then
    fun w => ⟨.ok (), w,
      [⟨.Info "Cgroups files not removed because cgroupsPath was empty", false⟩]⟩
  else
    removeLoop env cgroupsPathList

/-- `delete` (lines 63-118). -/
def delete (env : Collaborators σ ε PodStatus State Pod Spec)
    (containerID : String) (force : Bool) : Op σ ε Unit := do
  Op.call (.validContainer containerID) (env.validContainer containerID)
  if force == false then
    let podStatus ← Op.call (.StatusPod containerID) (env.StatusPod containerID)
    let state ← Op.call .StatusToOCIState (env.StatusToOCIState podStatus)
    let running ← Op.call (.processRunning (env.Pid state))
      (env.processRunning (env.Pid state))
    if running == true then
      Op.fail (env.Errorf "Container still running, should be stopped")
  let pod ← Op.call (.StopPod containerID) (env.StopPod containerID)
  let ociSpec ← Op.call .PodToOCIConfig (env.PodToOCIConfig pod)
  let _ ← Op.call (.DeletePod containerID) (env.DeletePod containerID)
  let cgroupsPathList ← Op.call .processCgroupsPath (env.processCgroupsPath ociSpec)
  removeCgroupsPath env cgroupsPathList

/-- The loop `for _, cID := range []string(args)` of the command's `Action`
(lines 53-59). -/
def actionLoop (env : Collaborators σ ε PodStatus State Pod Spec) (force : Bool) :
    List String → Op σ ε Unit
  | [] => pure ()
  | cID :: rest => do
    delete env cID force
    actionLoop env force rest

/-- `deleteCommand.Action` (lines 46-60); `args` is `context.Args()` and `force`
is `context.Bool("force")`. -/
def deleteCommand.Action (env : Collaborators σ ε PodStatus State Pod Spec)
    (args : List String) (force : Bool) : Op σ ε Unit :=
  if args.isEmpty then
    Op.fail (env.Errorf "Missing container ID, should at least provide one")
  else
    actionLoop env force args

end Program

section Blocks

variable {σ ε PodStatus State Pod Spec : Type}

/-- The body of `if force == false` in `delete` (lines 70-87), on its own. -/
def livenessGate (env : Collaborators σ ε PodStatus State Pod Spec)
    (containerID : String) : Op σ ε Unit := do
  let podStatus ← Op.call (.StatusPod containerID) (env.StatusPod containerID)
  let state ← Op.call .StatusToOCIState (env.StatusToOCIState podStatus)
  let running ← Op.call (.processRunning (env.Pid state))
    (env.processRunning (env.Pid state))
  if running == true then
    Op.fail (env.Errorf "Container still running, should be stopped")

/-- The statements of `delete` after the liveness gate (lines 90-117), on their
own. -/
def teardown (env : Collaborators σ ε PodStatus State Pod Spec)
    (containerID : String) : Op σ ε Unit := do
  let pod ← Op.call (.StopPod containerID) (env.StopPod containerID)
  let ociSpec ← Op.call .PodToOCIConfig (env.PodToOCIConfig pod)
  let _ ← Op.call (.DeletePod containerID) (env.DeletePod containerID)
  let cgroupsPathList ← Op.call .processCgroupsPath (env.processCgroupsPath ociSpec)
  removeCgroupsPath env cgroupsPathList

end Blocks

section Observations

variable {σ ε PodStatus State Pod Spec : Type}

/-- An outcome with earlier calls put in front of its trace. -/
def Outcome.after {α : Type} (t : List Event) (o : Outcome σ ε α) : Outcome σ ε α :=
  ⟨o.ret, o.world, t ++ o.trace⟩

/-- The three calls on the sandbox: stop, configuration fetch, delete. -/
def Call.isSandboxStep : Call → Bool
  | .StopPod _ => true
  | .PodToOCIConfig => true
  | .DeletePod _ => true
  | _ => false

/-- The three calls of the liveness gate: status fetch, state translation,
liveness check. -/
def Call.isLivenessGate : Call → Bool
  | .StatusPod _ => true
  | .StatusToOCIState => true
  | .processRunning _ => true
  | _ => false

/-- The validation call, the first call of every run of `delete`. -/
def Call.isValidation : Call → Bool
  | .validContainer _ => true
  | _ => false

/-- The calls of path removal. -/
def Call.isRemoval : Call → Bool
  | .RemoveAll _ => true
  | _ => false

/-- The calls that tear something down or clean up: sandbox stop, configuration
fetch, sandbox delete, path resolution and path removal. -/
def Call.isTeardown : Call → Bool
  | .StopPod _ => true
  | .PodToOCIConfig => true
  | .DeletePod _ => true
  | .processCgroupsPath => true
  | .RemoveAll _ => true
  | _ => false

/-- The world reached when `os.RemoveAll` has been applied to the given paths
one after the other. -/
def worldAfterRemovals (env : Collaborators σ ε PodStatus State Pod Spec)
    (paths : List String) (w : σ) : σ :=
  paths.foldl (fun w1 p => (env.RemoveAll p w1).2) w

/-- The world reached when `delete` has been run on the given container IDs
one after the other. -/
def worldAfterDeletes (env : Collaborators σ ε PodStatus State Pod Spec)
    (force : Bool) (ids : List String) (w : σ) : σ :=
  ids.foldl (fun w1 cID => (delete env cID force w1).world) w

/-- The calls made when `delete` is run on the given container IDs one after
the other: the traces of the runs, in order. -/
def deleteTraces (env : Collaborators σ ε PodStatus State Pod Spec)
    (force : Bool) : List String → σ → List Event
  | [], _ => []
  | cID :: rest, w =>
    (delete env cID force w).trace ++
      deleteTraces env force rest (delete env cID force w).world

/-- The liveness gate passes from world `w1` and leaves world `w3`: the request
is forced, or the status fetch and the translation succeed and the liveness
check reports not running. -/
def GatePasses (env : Collaborators σ ε PodStatus State Pod Spec)
    (containerID : String) (force : Bool) (w1 w3 : σ) : Prop :=
  (force = true ∧ w3 = w1) ∨
  (force = false ∧ ∃ (podStatus : PodStatus) (w2 : σ) (state : State) (w2a : σ),
    env.StatusPod containerID w1 = (.ok podStatus, w2) ∧
    env.StatusToOCIState podStatus w2 = (.ok state, w2a) ∧
    env.processRunning (env.Pid state) w2a = (.ok false, w3))

/-- Every stage of a deletion succeeds: validation, the liveness gate, sandbox
stop, configuration fetch, sandbox delete and path resolution (which yields
`paths` in world `w7`), and then the removal of every path of `paths`, each in
the world left by the removals before it. -/
def AllStagesSucceed (env : Collaborators σ ε PodStatus State Pod Spec)
    (containerID : String) (force : Bool) (w : σ) (paths : List String) (w7 : σ) :
    Prop :=
  ∃ (w1 w3 : σ) (pod : Pod) (w4 : σ) (ociSpec : Spec) (w5 : σ) (deleted : Pod) (w6 : σ),
    env.validContainer containerID w = (.ok (), w1) ∧
    GatePasses env containerID force w1 w3 ∧
    env.StopPod containerID w3 = (.ok pod, w4) ∧
    env.PodToOCIConfig pod w4 = (.ok ociSpec, w5) ∧
    env.DeletePod containerID w5 = (.ok deleted, w6) ∧
    env.processCgroupsPath ociSpec w6 = (.ok paths, w7) ∧
    ∀ (j : Nat) (p : String), paths[j]? = some p →
      (env.RemoveAll p (worldAfterRemovals env (paths.take j) w7)).1 = .ok ()

end Observations

section Fixture

/-- Scripted behaviour of a set of test doubles for the collaborators. -/
structure Script where
  known : List String
  statusErr : Option String
  stateErr : Option String
  lookupErr : Option String
  running : Bool
  stopErr : Option String
  configErr : Option String
  deleteErr : Option String
  resolveErr : Option String
  paths : List String
  stuck : List String

/-- Result of a scripted call that returns `a` unless an error is scripted. -/
def scripted {α : Type} (err : Option String) (a : α) : Except String α :=
  match err with
  | some e => .error e
  | none => .ok a

/-- Test doubles for the collaborators.  The world is the list of cgroup paths
present on the host; `os.RemoveAll` fails on the paths of `stuck` and otherwise
removes the path (an absent path is not an error); a container is valid when
its ID is in `known`; the process identifier is 4242. -/
def fake (s : Script) : Collaborators (List String) String Unit Int Unit (List String) where
  validContainer := fun cID w =>
    (if cID ∈ s.known then .ok () else .error "Container ID does not exist", w)
  StatusPod := fun _ w => (scripted s.statusErr (), w)
  StatusToOCIState := fun _ w => (scripted s.stateErr 4242, w)
  Pid := fun pid => pid
  processRunning := fun _ w => (scripted s.lookupErr s.running, w)
  StopPod := fun _ w => (scripted s.stopErr (), w)
  PodToOCIConfig := fun _ w => (scripted s.configErr s.paths, w)
  DeletePod := fun _ w => (scripted s.deleteErr (), w)
  processCgroupsPath := fun ociSpec w => (scripted s.resolveErr ociSpec, w)
  RemoveAll := fun p w =>
    if p ∈ s.stuck then (.error "permission denied", w)
    else (.ok (), w.filter (fun q => q ≠ p))
  Errorf := fun msg => msg

/-- A stopped container "ubuntu01" with two cgroup paths; every call succeeds. -/
def stopped : Script where
  known := ["ubuntu01"]
  statusErr := none
  stateErr := none
  lookupErr := none
  running := false
  stopErr := none
  configErr := none
  deleteErr := none
  resolveErr := none
  paths := ["/sys/fs/cgroup/cpu/ubuntu01", "/sys/fs/cgroup/memory/ubuntu01"]
  stuck := []

/-- The same container with its process still running. -/
def stillRunning : Script :=
  { stopped with running := true }

/-- The same container when the liveness lookup itself fails. -/
def lookupBroken : Script :=
  { stopped with lookupErr := some "lookup failed" }

/-- The same container when the sandbox delete fails. -/
def deleteBroken : Script :=
  { stopped with deleteErr := some "delete failed" }

/-- The same container when the removal of its memory cgroup path fails. -/
def secondStuck : Script :=
  { stopped with stuck := ["/sys/fs/cgroup/memory/ubuntu01"] }

/-- Three cgroup paths of "ubuntu01". -/
def threePaths : List String :=
  ["/sys/fs/cgroup/cpu/ubuntu01", "/sys/fs/cgroup/memory/ubuntu01",
    "/sys/fs/cgroup/pids/ubuntu01"]

/-- Two containers are known; every call succeeds. -/
def twoKnown : Script :=
  { stopped with known := ["ubuntu01", "ubuntu02"] }

/-- A host on which the two cgroup paths of "ubuntu01" are present. -/
def host : List String :=
  ["/sys/fs/cgroup/cpu/ubuntu01", "/sys/fs/cgroup/memory/ubuntu01", "/sys/fs/cgroup/cpu/other"]

end Fixture

section Lemmas

variable {σ ε PodStatus State Pod Spec : Type}

theorem Op.bind_eq {α β : Type} (m : Op σ ε α) (f : α → Op σ ε β) :
    (m >>= f) = Op.andThen m f := rfl

theorem Op.pure_eq {α : Type} (a : α) : (pure a : Op σ ε α) = Op.ret a := rfl

theorem Op.andThen_assoc {α β γ : Type} (m : Op σ ε α) (f : α → Op σ ε β)
    (g : β → Op σ ε γ) :
    Op.andThen (Op.andThen m f) g = Op.andThen m (fun a => Op.andThen (f a) g) := by
  funext w
  simp only [Op.andThen]
  rcases m w with ⟨_ | a, w1, t1⟩
  · rfl
  · simp only
    rcases f a w1 with ⟨_ | b, w2, t2⟩
    · rfl
    · simp only [List.append_assoc]

theorem Op.ite_andThen {α β : Type} (c : Prop) [Decidable c] (a b : Op σ ε α)
    (g : α → Op σ ε β) :
    Op.andThen (if c then a else b) g = if c then Op.andThen a g else Op.andThen b g := by
  split <;> rfl

theorem Op.andThen_error {α β : Type} (m : Op σ ε α) (f : α → Op σ ε β) (w w1 : σ)
    (e : ε) (t : List Event) (h : m w = ⟨.error e, w1, t⟩) :
    Op.andThen m f w = ⟨.error e, w1, t⟩ := by
  simp [Op.andThen, h]

theorem Op.andThen_ok {α β : Type} (m : Op σ ε α) (f : α → Op σ ε β) (w w1 : σ)
    (a : α) (t : List Event) (h : m w = ⟨.ok a, w1, t⟩) :
    Op.andThen m f w = (f a w1).after t := by
  simp [Op.andThen, h, Outcome.after]

theorem Op.call_error {α : Type} (c : Call) (f : σ → Except ε α × σ) (w w1 : σ) (e : ε)
    (h : f w = (.error e, w1)) : Op.call c f w = ⟨.error e, w1, [⟨c, true⟩]⟩ := by
  simp [Op.call, h]

theorem Op.call_ok {α : Type} (c : Call) (f : σ → Except ε α × σ) (w w1 : σ) (a : α)
    (h : f w = (.ok a, w1)) : Op.call c f w = ⟨.ok a, w1, [⟨c, false⟩]⟩ := by
  simp [Op.call, h]

/-- A failed call stops the sequence. -/
theorem Op.call_andThen_error {α β : Type} (c : Call) (f : σ → Except ε α × σ)
    (k : α → Op σ ε β) (w w1 : σ) (e : ε) (h : f w = (.error e, w1)) :
    Op.andThen (Op.call c f) k w = ⟨.error e, w1, [⟨c, true⟩]⟩ :=
  Op.andThen_error _ _ _ _ _ _ (Op.call_error c f w w1 e h)

/-- A successful call is followed by the rest of the sequence. -/
theorem Op.call_andThen_ok {α β : Type} (c : Call) (f : σ → Except ε α × σ)
    (k : α → Op σ ε β) (w w1 : σ) (a : α) (h : f w = (.ok a, w1)) :
    Op.andThen (Op.call c f) k w = (k a w1).after [⟨c, false⟩] :=
  Op.andThen_ok _ _ _ _ _ _ (Op.call_ok c f w w1 a h)

theorem delete_eq (env : Collaborators σ ε PodStatus State Pod Spec) (cid : String)
    (force : Bool) :
    delete env cid force =
      Op.andThen (Op.call (.validContainer cid) (env.validContainer cid)) (fun _ =>
        Op.andThen (if force = false then livenessGate env cid else Op.ret ())
          (fun _ => teardown env cid)) := by
  cases force
  · simp [delete, livenessGate, teardown, Op.bind_eq, Op.andThen_assoc, Op.ite_andThen]
  · rfl

/-- The five ways the statements after the liveness gate can go. -/
theorem teardown_cases (env : Collaborators σ ε PodStatus State Pod Spec) (cid : String)
    (w3 : σ) :
    (∃ e w4, env.StopPod cid w3 = (.error e, w4) ∧
      teardown env cid w3 = ⟨.error e, w4, [⟨.StopPod cid, true⟩]⟩) ∨
    (∃ pod w4 e w5, env.StopPod cid w3 = (.ok pod, w4) ∧
      env.PodToOCIConfig pod w4 = (.error e, w5) ∧
      teardown env cid w3 =
        ⟨.error e, w5, [⟨.StopPod cid, false⟩, ⟨.PodToOCIConfig, true⟩]⟩) ∨
    (∃ pod w4 ociSpec w5 e w6, env.StopPod cid w3 = (.ok pod, w4) ∧
      env.PodToOCIConfig pod w4 = (.ok ociSpec, w5) ∧
      env.DeletePod cid w5 = (.error e, w6) ∧
      teardown env cid w3 =
        ⟨.error e, w6,
          [⟨.StopPod cid, false⟩, ⟨.PodToOCIConfig, false⟩, ⟨.DeletePod cid, true⟩]⟩) ∨
    (∃ pod w4 ociSpec w5 deleted w6 e w7, env.StopPod cid w3 = (.ok pod, w4) ∧
      env.PodToOCIConfig pod w4 = (.ok ociSpec, w5) ∧
      env.DeletePod cid w5 = (.ok deleted, w6) ∧
      env.processCgroupsPath ociSpec w6 = (.error e, w7) ∧
      teardown env cid w3 =
        ⟨.error e, w7,
          [⟨.StopPod cid, false⟩, ⟨.PodToOCIConfig, false⟩, ⟨.DeletePod cid, false⟩,
            ⟨.processCgroupsPath, true⟩]⟩) ∨
    (∃ pod w4 ociSpec w5 deleted w6 paths w7, env.StopPod cid w3 = (.ok pod, w4) ∧
      env.PodToOCIConfig pod w4 = (.ok ociSpec, w5) ∧
      env.DeletePod cid w5 = (.ok deleted, w6) ∧
      env.processCgroupsPath ociSpec w6 = (.ok paths, w7) ∧
      teardown env cid w3 =
        (removeCgroupsPath env paths w7).after
          [⟨.StopPod cid, false⟩, ⟨.PodToOCIConfig, false⟩, ⟨.DeletePod cid, false⟩,
            ⟨.processCgroupsPath, false⟩]) := by
  rcases h4 : env.StopPod cid w3 with ⟨e | pod, w4⟩
  · exact Or.inl ⟨e, w4, rfl, by
      simp [teardown, Op.bind_eq, Op.call_andThen_error _ _ _ _ _ _ h4]⟩
  right
  rcases h5 : env.PodToOCIConfig pod w4 with ⟨e | ociSpec, w5⟩
  · exact Or.inl ⟨pod, w4, e, w5, rfl, h5, by
      simp [teardown, Op.bind_eq, Op.call_andThen_ok _ _ _ _ _ _ h4,
        Op.call_andThen_error _ _ _ _ _ _ h5, Outcome.after]⟩
  right
  rcases h6 : env.DeletePod cid w5 with ⟨e | deleted, w6⟩
  · exact Or.inl ⟨pod, w4, ociSpec, w5, e, w6, rfl, h5, h6, by
      simp [teardown, Op.bind_eq, Op.call_andThen_ok _ _ _ _ _ _ h4,
        Op.call_andThen_ok _ _ _ _ _ _ h5,
        Op.call_andThen_error _ _ _ _ _ _ h6, Outcome.after]⟩
  right
  rcases h7 : env.processCgroupsPath ociSpec w6 with ⟨e | paths, w7⟩
  · exact Or.inl ⟨pod, w4, ociSpec, w5, deleted, w6, e, w7, rfl, h5, h6, h7, by
      simp [teardown, Op.bind_eq, Op.call_andThen_ok _ _ _ _ _ _ h4,
        Op.call_andThen_ok _ _ _ _ _ _ h5, Op.call_andThen_ok _ _ _ _ _ _ h6,
        Op.call_andThen_error _ _ _ _ _ _ h7, Outcome.after]⟩
  · exact Or.inr ⟨pod, w4, ociSpec, w5, deleted, w6, paths, w7, rfl, h5, h6, h7, by
      simp [teardown, Op.bind_eq, Op.call_andThen_ok _ _ _ _ _ _ h4,
        Op.call_andThen_ok _ _ _ _ _ _ h5, Op.call_andThen_ok _ _ _ _ _ _ h6,
        Op.call_andThen_ok _ _ _ _ _ _ h7, Outcome.after]⟩

/-- The five ways the liveness gate can go. -/
theorem livenessGate_cases (env : Collaborators σ ε PodStatus State Pod Spec)
    (cid : String) (w1 : σ) :
    (∃ e w2, env.StatusPod cid w1 = (.error e, w2) ∧
      livenessGate env cid w1 = ⟨.error e, w2, [⟨.StatusPod cid, true⟩]⟩) ∨
    (∃ ps w2 e w2a, env.StatusPod cid w1 = (.ok ps, w2) ∧
      env.StatusToOCIState ps w2 = (.error e, w2a) ∧
      livenessGate env cid w1 =
        ⟨.error e, w2a, [⟨.StatusPod cid, false⟩, ⟨.StatusToOCIState, true⟩]⟩) ∨
    (∃ ps w2 st w2a e w3, env.StatusPod cid w1 = (.ok ps, w2) ∧
      env.StatusToOCIState ps w2 = (.ok st, w2a) ∧
      env.processRunning (env.Pid st) w2a = (.error e, w3) ∧
      livenessGate env cid w1 =
        ⟨.error e, w3, [⟨.StatusPod cid, false⟩, ⟨.StatusToOCIState, false⟩,
          ⟨.processRunning (env.Pid st), true⟩]⟩) ∨
    (∃ ps w2 st w2a w3, env.StatusPod cid w1 = (.ok ps, w2) ∧
      env.StatusToOCIState ps w2 = (.ok st, w2a) ∧
      env.processRunning (env.Pid st) w2a = (.ok true, w3) ∧
      livenessGate env cid w1 =
        ⟨.error (env.Errorf "Container still running, should be stopped"), w3,
          [⟨.StatusPod cid, false⟩, ⟨.StatusToOCIState, false⟩,
            ⟨.processRunning (env.Pid st), false⟩]⟩) ∨
    (∃ ps w2 st w2a w3, env.StatusPod cid w1 = (.ok ps, w2) ∧
      env.StatusToOCIState ps w2 = (.ok st, w2a) ∧
      env.processRunning (env.Pid st) w2a = (.ok false, w3) ∧
      livenessGate env cid w1 =
        ⟨.ok (), w3, [⟨.StatusPod cid, false⟩, ⟨.StatusToOCIState, false⟩,
          ⟨.processRunning (env.Pid st), false⟩]⟩) := by
  rcases h2 : env.StatusPod cid w1 with ⟨e | ps, w2⟩
  · exact Or.inl ⟨e, w2, rfl, by
      simp [livenessGate, Op.bind_eq, Op.call_andThen_error _ _ _ _ _ _ h2]⟩
  right
  rcases h3 : env.StatusToOCIState ps w2 with ⟨e | st, w2a⟩
  · exact Or.inl ⟨ps, w2, e, w2a, rfl, h3, by
      simp [livenessGate, Op.bind_eq, Op.call_andThen_ok _ _ _ _ _ _ h2,
        Op.call_andThen_error _ _ _ _ _ _ h3, Outcome.after]⟩
  right
  rcases h4 : env.processRunning (env.Pid st) w2a with ⟨e | running, w3⟩
  · exact Or.inl ⟨ps, w2, st, w2a, e, w3, rfl, h3, h4, by
      simp [livenessGate, Op.bind_eq, Op.call_andThen_ok _ _ _ _ _ _ h2,
        Op.call_andThen_ok _ _ _ _ _ _ h3,
        Op.call_andThen_error _ _ _ _ _ _ h4, Outcome.after]⟩
  right
  cases running
  · exact Or.inr ⟨ps, w2, st, w2a, w3, rfl, h3, h4, by
      simp [livenessGate, Op.bind_eq, Op.call_andThen_ok _ _ _ _ _ _ h2,
        Op.call_andThen_ok _ _ _ _ _ _ h3, Op.call_andThen_ok _ _ _ _ _ _ h4,
        Outcome.after, Op.pure_eq, Op.ret]⟩
  · exact Or.inl ⟨ps, w2, st, w2a, w3, rfl, h3, h4, by
      simp [livenessGate, Op.bind_eq, Op.call_andThen_ok _ _ _ _ _ _ h2,
        Op.call_andThen_ok _ _ _ _ _ _ h3, Op.call_andThen_ok _ _ _ _ _ _ h4,
        Outcome.after, Op.fail]⟩

/-- A failed validation ends `delete`. -/
theorem delete_of_invalid (env : Collaborators σ ε PodStatus State Pod Spec)
    (cid : String) (force : Bool) (w w1 : σ) (e : ε)
    (h : env.validContainer cid w = (.error e, w1)) :
    delete env cid force w = ⟨.error e, w1, [⟨.validContainer cid, true⟩]⟩ := by
  rw [delete_eq]
  exact Op.call_andThen_error _ _ _ _ _ _ h

/-- A forced `delete` is the validation followed by the teardown. -/
theorem delete_of_forced (env : Collaborators σ ε PodStatus State Pod Spec)
    (cid : String) (w w1 : σ) (h : env.validContainer cid w = (.ok (), w1)) :
    delete env cid true w =
      (teardown env cid w1).after [⟨.validContainer cid, false⟩] := by
  rw [delete_eq, Op.call_andThen_ok _ _ _ _ _ _ h]
  simp [Op.andThen, Op.ret, Outcome.after]

/-- An unforced `delete` whose liveness gate returns an error ends there. -/
theorem delete_of_gate_error (env : Collaborators σ ε PodStatus State Pod Spec)
    (cid : String) (w w1 w3 : σ) (e : ε) (t : List Event)
    (h : env.validContainer cid w = (.ok (), w1))
    (hg : livenessGate env cid w1 = ⟨.error e, w3, t⟩) :
    delete env cid false w = ⟨.error e, w3, ⟨.validContainer cid, false⟩ :: t⟩ := by
  rw [delete_eq, Op.call_andThen_ok _ _ _ _ _ _ h]
  simp [Op.andThen, hg, Outcome.after]

/-- An unforced `delete` whose liveness gate passes goes on with the teardown. -/
theorem delete_of_gate_ok (env : Collaborators σ ε PodStatus State Pod Spec)
    (cid : String) (w w1 w3 : σ) (t : List Event)
    (h : env.validContainer cid w = (.ok (), w1))
    (hg : livenessGate env cid w1 = ⟨.ok (), w3, t⟩) :
    delete env cid false w =
      (teardown env cid w3).after (⟨.validContainer cid, false⟩ :: t) := by
  rw [delete_eq, Op.call_andThen_ok _ _ _ _ _ _ h]
  simp [Op.andThen, hg, Outcome.after]

theorem removeLoop_cons_error (env : Collaborators σ ε PodStatus State Pod Spec)
    (p : String) (ps : List String) (w w1 : σ) (e : ε)
    (h : env.RemoveAll p w = (.error e, w1)) :
    removeLoop env (p :: ps) w = ⟨.error e, w1, [⟨.RemoveAll p, true⟩]⟩ := by
  simp only [removeLoop, Op.bind_eq]
  exact Op.call_andThen_error _ _ _ _ _ _ h

theorem removeLoop_cons_ok (env : Collaborators σ ε PodStatus State Pod Spec)
    (p : String) (ps : List String) (w w1 : σ)
    (h : env.RemoveAll p w = (.ok (), w1)) :
    removeLoop env (p :: ps) w = (removeLoop env ps w1).after [⟨.RemoveAll p, false⟩] := by
  simp only [removeLoop, Op.bind_eq]
  exact Op.call_andThen_ok _ _ _ _ _ _ h

theorem worldAfterRemovals_cons (env : Collaborators σ ε PodStatus State Pod Spec)
    (p : String) (ps : List String) (w : σ) :
    worldAfterRemovals env (p :: ps) w = worldAfterRemovals env ps (env.RemoveAll p w).2 :=
  rfl

/-- The loop stops at the first path whose removal fails. -/
theorem removeLoop_fail (env : Collaborators σ ε PodStatus State Pod Spec) :
    ∀ (paths : List String) (w : σ) (i : Nat) (p : String) (e : ε),
      paths[i]? = some p →
      (∀ (j : Nat) (q : String), j < i → paths[j]? = some q →
        (env.RemoveAll q (worldAfterRemovals env (paths.take j) w)).1 = .ok ()) →
      (env.RemoveAll p (worldAfterRemovals env (paths.take i) w)).1 = .error e →
      removeLoop env paths w =
        ⟨.error e, worldAfterRemovals env (paths.take (i + 1)) w,
          (paths.take i).map (fun q => ⟨.RemoveAll q, false⟩) ++ [⟨.RemoveAll p, true⟩]⟩ := by
  intro paths
  induction paths with
  | nil => intro w i p e hp; simp at hp
  | cons q qs ih =>
    intro w i p e hp hbefore hfail
    cases i with
    | zero =>
      simp only [List.getElem?_cons_zero, Option.some.injEq] at hp
      subst hp
      have hfail1 : (env.RemoveAll q w).1 = .error e := hfail
      have h : env.RemoveAll q w = (.error e, (env.RemoveAll q w).2) :=
        Prod.ext hfail1 rfl
      rw [removeLoop_cons_error env q qs w _ e h]
      simp [worldAfterRemovals]
    | succ i =>
      have h0 : (env.RemoveAll q w).1 = .ok () :=
        hbefore 0 q (Nat.succ_pos i) (by simp)
      have h : env.RemoveAll q w = (.ok (), (env.RemoveAll q w).2) :=
        Prod.ext h0 rfl
      rw [removeLoop_cons_ok env q qs w _ h]
      have hp1 : qs[i]? = some p := by simpa using hp
      have hrec := ih (env.RemoveAll q w).2 i p e hp1
        (fun j r hj hr => by
          have := hbefore (j + 1) r (Nat.succ_lt_succ hj) (by simpa using hr)
          simpa [worldAfterRemovals_cons] using this)
        (by simpa [worldAfterRemovals_cons] using hfail)
      rw [hrec]
      simp [Outcome.after, worldAfterRemovals_cons]

/-- The loop runs through when every removal succeeds. -/
theorem removeLoop_ok (env : Collaborators σ ε PodStatus State Pod Spec) :
    ∀ (paths : List String) (w : σ),
      (∀ (j : Nat) (q : String), paths[j]? = some q →
        (env.RemoveAll q (worldAfterRemovals env (paths.take j) w)).1 = .ok ()) →
      removeLoop env paths w =
        ⟨.ok (), worldAfterRemovals env paths w,
          paths.map (fun q => ⟨.RemoveAll q, false⟩)⟩ := by
  intro paths
  induction paths with
  | nil => intro w _; rfl
  | cons q qs ih =>
    intro w hall
    have h0 : (env.RemoveAll q w).1 = .ok () := hall 0 q (by simp)
    have h : env.RemoveAll q w = (.ok (), (env.RemoveAll q w).2) :=
      Prod.ext h0 rfl
    rw [removeLoop_cons_ok env q qs w _ h]
    have hrec := ih (env.RemoveAll q w).2
      (fun j r hr => by
        have := hall (j + 1) r (by simpa using hr)
        simpa [worldAfterRemovals_cons] using this)
    rw [hrec]
    simp [Outcome.after, worldAfterRemovals_cons]

/-- The loop returns success only when every removal succeeded. -/
theorem removeLoop_ok_only (env : Collaborators σ ε PodStatus State Pod Spec) :
    ∀ (paths : List String) (w : σ), (removeLoop env paths w).ret = .ok () →
      ∀ (j : Nat) (q : String), paths[j]? = some q →
        (env.RemoveAll q (worldAfterRemovals env (paths.take j) w)).1 = .ok () := by
  intro paths
  induction paths with
  | nil => intro w _ j q hq; simp at hq
  | cons p ps ih =>
    intro w hret j q hq
    rcases h : env.RemoveAll p w with ⟨e | u, w1⟩
    · rw [removeLoop_cons_error env p ps w w1 e h] at hret
      simp at hret
    · rw [removeLoop_cons_ok env p ps w w1 h] at hret
      cases j with
      | zero =>
        simp only [List.getElem?_cons_zero, Option.some.injEq] at hq
        subst hq
        simp [worldAfterRemovals, h]
      | succ j =>
        have hq1 : ps[j]? = some q := by simpa using hq
        have := ih w1 (by simpa [Outcome.after] using hret) j q hq1
        simpa [worldAfterRemovals_cons, h] using this

/-- The loop makes no call but `os.RemoveAll`. -/
theorem removeLoop_filter (env : Collaborators σ ε PodStatus State Pod Spec)
    (q : Call → Bool) (hq : ∀ p, q (.RemoveAll p) = false) :
    ∀ (paths : List String) (w : σ),
      (removeLoop env paths w).trace.filter (fun ev => q ev.call) = [] := by
  intro paths
  induction paths with
  | nil => intro w; rfl
  | cons p ps ih =>
    intro w
    rcases h : env.RemoveAll p w with ⟨e | u, w1⟩
    · rw [removeLoop_cons_error env p ps w w1 e h]
      simp [hq]
    · rw [removeLoop_cons_ok env p ps w w1 h]
      simp [Outcome.after, hq, ih w1]

theorem removeCgroupsPath_nil (env : Collaborators σ ε PodStatus State Pod Spec) (w : σ) :
    removeCgroupsPath env [] w =
      ⟨.ok (), w,
        [⟨.Info "Cgroups files not removed because cgroupsPath was empty", false⟩]⟩ :=
  rfl

theorem removeCgroupsPath_of_ne (env : Collaborators σ ε PodStatus State Pod Spec)
    (paths : List String) (h : paths ≠ []) :
    removeCgroupsPath env paths = removeLoop env paths := by
  cases paths with
  | nil => exact absurd rfl h
  | cons p ps => simp [removeCgroupsPath]

/-- The cleanup makes no call but `os.RemoveAll` and the log note. -/
theorem removeCgroupsPath_filter (env : Collaborators σ ε PodStatus State Pod Spec)
    (q : Call → Bool) (hq : ∀ p, q (.RemoveAll p) = false) (hi : ∀ m, q (.Info m) = false)
    (paths : List String) (w : σ) :
    (removeCgroupsPath env paths w).trace.filter (fun ev => q ev.call) = [] := by
  cases paths with
  | nil => simp [removeCgroupsPath_nil, hi]
  | cons p ps =>
    rw [removeCgroupsPath_of_ne env (p :: ps) (by simp)]
    exact removeLoop_filter env q hq (p :: ps) w

/-- The liveness gate makes no call outside its own three. -/
theorem livenessGate_filter (env : Collaborators σ ε PodStatus State Pod Spec)
    (q : Call → Bool) (hq : ∀ c, c.isLivenessGate = true → q c = false)
    (cid : String) (w1 : σ) :
    (livenessGate env cid w1).trace.filter (fun ev => q ev.call) = [] := by
  have h1 : q (.StatusPod cid) = false := hq _ rfl
  have h2 : q .StatusToOCIState = false := hq _ rfl
  have h3 : ∀ pid, q (.processRunning pid) = false := fun pid => hq _ rfl
  rcases livenessGate_cases env cid w1 with
    ⟨e, w2, _, h⟩ | ⟨ps, w2, e, w2a, _, _, h⟩ | ⟨ps, w2, st, w2a, e, w3, _, _, _, h⟩ |
    ⟨ps, w2, st, w2a, w3, _, _, _, h⟩ | ⟨ps, w2, st, w2a, w3, _, _, _, h⟩ <;>
  simp [h, h1, h2, h3]

/-- The sandbox steps of the teardown: stop, then configuration fetch, then
delete, each made only when the one before succeeded. -/
theorem teardown_sandbox_steps (env : Collaborators σ ε PodStatus State Pod Spec)
    (cid : String) (w3 : σ) :
    (teardown env cid w3).trace.filter (fun ev => ev.call.isSandboxStep)
        = [⟨.StopPod cid, true⟩] ∨
    (teardown env cid w3).trace.filter (fun ev => ev.call.isSandboxStep)
        = [⟨.StopPod cid, false⟩, ⟨.PodToOCIConfig, true⟩] ∨
    ∃ b, (teardown env cid w3).trace.filter (fun ev => ev.call.isSandboxStep)
        = [⟨.StopPod cid, false⟩, ⟨.PodToOCIConfig, false⟩, ⟨.DeletePod cid, b⟩] := by
  rcases teardown_cases env cid w3 with
    ⟨e, w4, _, h⟩ | ⟨pod, w4, e, w5, _, _, h⟩ | ⟨pod, w4, sp, w5, e, w6, _, _, _, h⟩ |
    ⟨pod, w4, sp, w5, d, w6, e, w7, _, _, _, _, h⟩ |
    ⟨pod, w4, sp, w5, d, w6, paths, w7, _, _, _, _, h⟩
  · left; simp [h, Call.isSandboxStep]
  · right; left; simp [h, Call.isSandboxStep]
  · right; right; exact ⟨true, by simp [h, Call.isSandboxStep]⟩
  · right; right; exact ⟨false, by simp [h, Call.isSandboxStep]⟩
  · right; right
    refine ⟨false, ?_⟩
    have := removeCgroupsPath_filter env Call.isSandboxStep (fun _ => rfl) (fun _ => rfl)
      paths w7
    simp [h, Outcome.after, Call.isSandboxStep, List.filter_cons]
    simpa [Call.isSandboxStep] using this

/-- The teardown makes none of the calls of the liveness gate. -/
theorem teardown_no_gate_call (env : Collaborators σ ε PodStatus State Pod Spec)
    (cid : String) (w3 : σ) :
    ∀ ev ∈ (teardown env cid w3).trace, ev.call.isLivenessGate = false := by
  have hrm : ∀ paths w7, ∀ ev ∈ (removeCgroupsPath env paths w7).trace,
      ev.call.isLivenessGate = false := by
    intro paths w7
    have := removeCgroupsPath_filter env Call.isLivenessGate (fun _ => rfl) (fun _ => rfl)
      paths w7
    simpa [List.filter_eq_nil_iff] using this
  rcases teardown_cases env cid w3 with
    ⟨e, w4, _, h⟩ | ⟨pod, w4, e, w5, _, _, h⟩ | ⟨pod, w4, sp, w5, e, w6, _, _, _, h⟩ |
    ⟨pod, w4, sp, w5, d, w6, e, w7, _, _, _, _, h⟩ |
    ⟨pod, w4, sp, w5, d, w6, paths, w7, _, _, _, _, h⟩
  · simp [h, Call.isLivenessGate]
  · simp [h, Call.isLivenessGate]
  · simp [h, Call.isLivenessGate]
  · simp [h, Call.isLivenessGate]
  · intro ev hev
    simp only [h, Outcome.after, List.mem_append, List.mem_cons, List.mem_singleton,
      List.not_mem_nil, or_false] at hev
    rcases hev with (h1 | h1 | h1 | h1) | h1
    · subst h1; rfl
    · subst h1; rfl
    · subst h1; rfl
    · subst h1; rfl
    · exact hrm paths w7 ev h1

/-- The liveness gate passes exactly when it returns success. -/
theorem livenessGate_of_passes (env : Collaborators σ ε PodStatus State Pod Spec)
    (cid : String) (w1 w3 : σ) (h : GatePasses env cid false w1 w3) :
    ∃ pid, livenessGate env cid w1 =
      ⟨.ok (), w3, [⟨.StatusPod cid, false⟩, ⟨.StatusToOCIState, false⟩,
        ⟨.processRunning pid, false⟩]⟩ := by
  rcases h with ⟨hf, _⟩ | ⟨_, ps, w2, st, w2a, h2, h3, h4⟩
  · cases hf
  · exact ⟨env.Pid st, by
      simp [livenessGate, Op.bind_eq, Op.call_andThen_ok _ _ _ _ _ _ h2,
        Op.call_andThen_ok _ _ _ _ _ _ h3, Op.call_andThen_ok _ _ _ _ _ _ h4,
        Outcome.after, Op.pure_eq, Op.ret]⟩

/-- The two ways `delete` can go: it stops with an error before any teardown
call, or validation and the liveness gate pass and it goes on with the
teardown. -/
theorem delete_shape (env : Collaborators σ ε PodStatus State Pod Spec) (cid : String)
    (force : Bool) (w : σ) :
    (∃ e w3 t, (∀ ev ∈ t, ev.call.isTeardown = false) ∧
      delete env cid force w = ⟨.error e, w3, t⟩) ∨
    (∃ w1 w3 t, env.validContainer cid w = (.ok (), w1) ∧
      GatePasses env cid force w1 w3 ∧ (∀ ev ∈ t, ev.call.isTeardown = false) ∧
      delete env cid force w = (teardown env cid w3).after t) := by
  rcases hv : env.validContainer cid w with ⟨e | u, w1⟩
  · left
    refine ⟨e, w1, _, ?_, delete_of_invalid env cid force w w1 e hv⟩
    intro ev hev
    simp only [List.mem_singleton] at hev
    subst hev
    rfl
  · cases force with
    | true =>
      right
      refine ⟨w1, w1, _, rfl, Or.inl ⟨rfl, rfl⟩, ?_, delete_of_forced env cid w w1 hv⟩
      intro ev hev
      simp only [List.mem_singleton] at hev
      subst hev
      rfl
    | false =>
      have hfil := livenessGate_filter env Call.isTeardown
        (fun c hc => by cases c <;> simp_all [Call.isLivenessGate, Call.isTeardown])
        cid w1
      have hno : ∀ ev ∈ (livenessGate env cid w1).trace, ev.call.isTeardown = false := by
        simpa [List.filter_eq_nil_iff] using hfil
      have hno1 : ∀ ev ∈ (⟨.validContainer cid, false⟩ :: (livenessGate env cid w1).trace),
          ev.call.isTeardown = false := by
        intro ev hev
        rcases List.mem_cons.mp hev with h | h
        · subst h; rfl
        · exact hno ev h
      rcases livenessGate_cases env cid w1 with
        ⟨e, w2, _, h⟩ | ⟨ps, w2, e, w2a, _, _, h⟩ | ⟨ps, w2, st, w2a, e, w3, _, _, _, h⟩ |
        ⟨ps, w2, st, w2a, w3, _, _, _, h⟩ | ⟨ps, w2, st, w2a, w3, h2, h3, h4, h⟩
      · left
        rw [h] at hno1
        exact ⟨_, _, _, hno1, delete_of_gate_error env cid w w1 _ _ _ hv h⟩
      · left
        rw [h] at hno1
        exact ⟨_, _, _, hno1, delete_of_gate_error env cid w w1 _ _ _ hv h⟩
      · left
        rw [h] at hno1
        exact ⟨_, _, _, hno1, delete_of_gate_error env cid w w1 _ _ _ hv h⟩
      · left
        rw [h] at hno1
        exact ⟨_, _, _, hno1, delete_of_gate_error env cid w w1 _ _ _ hv h⟩
      · right
        rw [h] at hno1
        exact ⟨w1, w3, _, rfl, Or.inr ⟨rfl, ps, w2, st, w2a, h2, h3, h4⟩, hno1,
          delete_of_gate_ok env cid w w1 _ _ hv h⟩

/-- The teardown when every call up to path resolution succeeds. -/
theorem teardown_of_resolved (env : Collaborators σ ε PodStatus State Pod Spec)
    (cid : String) (w3 w4 w5 w6 w7 : σ) (pod deleted : Pod) (ociSpec : Spec)
    (paths : List String)
    (h4 : env.StopPod cid w3 = (.ok pod, w4))
    (h5 : env.PodToOCIConfig pod w4 = (.ok ociSpec, w5))
    (h6 : env.DeletePod cid w5 = (.ok deleted, w6))
    (h7 : env.processCgroupsPath ociSpec w6 = (.ok paths, w7)) :
    teardown env cid w3 =
      (removeCgroupsPath env paths w7).after
        [⟨.StopPod cid, false⟩, ⟨.PodToOCIConfig, false⟩, ⟨.DeletePod cid, false⟩,
          ⟨.processCgroupsPath, false⟩] := by
  simp [teardown, Op.bind_eq, Op.call_andThen_ok _ _ _ _ _ _ h4,
    Op.call_andThen_ok _ _ _ _ _ _ h5, Op.call_andThen_ok _ _ _ _ _ _ h6,
    Op.call_andThen_ok _ _ _ _ _ _ h7, Outcome.after]

/-- The cleanup when every removal succeeds. -/
theorem removeCgroupsPath_ok (env : Collaborators σ ε PodStatus State Pod Spec)
    (paths : List String) (w : σ)
    (hall : ∀ (j : Nat) (q : String), paths[j]? = some q →
      (env.RemoveAll q (worldAfterRemovals env (paths.take j) w)).1 = .ok ()) :
    (removeCgroupsPath env paths w).ret = .ok () ∧
    (removeCgroupsPath env paths w).world = worldAfterRemovals env paths w ∧
    (removeCgroupsPath env paths w).trace.filter (fun ev => ev.call.isRemoval) =
      paths.map (fun q => ⟨.RemoveAll q, false⟩) := by
  cases paths with
  | nil => exact ⟨rfl, rfl, rfl⟩
  | cons p ps =>
    rw [removeCgroupsPath_of_ne env (p :: ps) (by simp), removeLoop_ok env (p :: ps) w hall]
    refine ⟨rfl, rfl, ?_⟩
    rw [List.filter_eq_self]
    intro ev hev
    obtain ⟨q, _, rfl⟩ := List.mem_map.mp hev
    rfl

/-- The cleanup returns success only when every removal succeeded. -/
theorem removeCgroupsPath_ok_only (env : Collaborators σ ε PodStatus State Pod Spec)
    (paths : List String) (w : σ) (h : (removeCgroupsPath env paths w).ret = .ok ()) :
    ∀ (j : Nat) (q : String), paths[j]? = some q →
      (env.RemoveAll q (worldAfterRemovals env (paths.take j) w)).1 = .ok () := by
  cases paths with
  | nil => intro j q hq; simp at hq
  | cons p ps =>
    rw [removeCgroupsPath_of_ne env (p :: ps) (by simp)] at h
    exact removeLoop_ok_only env (p :: ps) w h

/-- A path that is absent stays absent through successful removals, when a
successful removal never brings a path back. -/
theorem absent_after_removals (env : Collaborators σ ε PodStatus State Pod Spec)
    (present : σ → String → Prop)
    (hkeep : ∀ (p q : String) (v : σ), (env.RemoveAll p v).1 = .ok () →
      ¬ present v q → ¬ present (env.RemoveAll p v).2 q) :
    ∀ (paths : List String) (w : σ),
      (∀ (j : Nat) (q : String), paths[j]? = some q →
        (env.RemoveAll q (worldAfterRemovals env (paths.take j) w)).1 = .ok ()) →
      ∀ q, ¬ present w q → ¬ present (worldAfterRemovals env paths w) q := by
  intro paths
  induction paths with
  | nil => intro w _ q hq; exact hq
  | cons p ps ih =>
    intro w hall q hq
    have h0 : (env.RemoveAll p w).1 = .ok () := hall 0 p (by simp)
    rw [worldAfterRemovals_cons]
    refine ih _ (fun j r hr => ?_) q (hkeep p q w h0 hq)
    have := hall (j + 1) r (by simpa using hr)
    simpa [worldAfterRemovals_cons] using this

/-- After successful removals every path of the list is absent, when a
successful removal deletes its path and never brings a path back. -/
theorem removed_paths_absent (env : Collaborators σ ε PodStatus State Pod Spec)
    (present : σ → String → Prop)
    (hgone : ∀ (p : String) (v : σ), (env.RemoveAll p v).1 = .ok () →
      ¬ present (env.RemoveAll p v).2 p)
    (hkeep : ∀ (p q : String) (v : σ), (env.RemoveAll p v).1 = .ok () →
      ¬ present v q → ¬ present (env.RemoveAll p v).2 q) :
    ∀ (paths : List String) (w : σ),
      (∀ (j : Nat) (q : String), paths[j]? = some q →
        (env.RemoveAll q (worldAfterRemovals env (paths.take j) w)).1 = .ok ()) →
      ∀ q ∈ paths, ¬ present (worldAfterRemovals env paths w) q := by
  intro paths
  induction paths with
  | nil => intro w _ q hq; simp at hq
  | cons p ps ih =>
    intro w hall q hq
    have h0 : (env.RemoveAll p w).1 = .ok () := hall 0 p (by simp)
    have hrest : ∀ (j : Nat) (r : String), ps[j]? = some r →
        (env.RemoveAll r (worldAfterRemovals env (ps.take j) (env.RemoveAll p w).2)).1
          = .ok () := by
      intro j r hr
      have := hall (j + 1) r (by simpa using hr)
      simpa [worldAfterRemovals_cons] using this
    rw [worldAfterRemovals_cons]
    rcases List.mem_cons.mp hq with h | h
    · subst h
      exact absent_after_removals env present hkeep ps _ hrest q (hgone q w h0)
    · exact ih _ hrest q h

/-- The teardown makes no call outside the teardown calls and the log note. -/
theorem teardown_filter (env : Collaborators σ ε PodStatus State Pod Spec)
    (q : Call → Bool) (hq : ∀ c, c.isTeardown = true → q c = false)
    (hi : ∀ m, q (.Info m) = false) (cid : String) (w3 : σ) :
    (teardown env cid w3).trace.filter (fun ev => q ev.call) = [] := by
  have h1 : q (.StopPod cid) = false := hq _ rfl
  have h2 : q .PodToOCIConfig = false := hq _ rfl
  have h3 : q (.DeletePod cid) = false := hq _ rfl
  have h4 : q .processCgroupsPath = false := hq _ rfl
  rcases teardown_cases env cid w3 with
    ⟨e, w4, _, h⟩ | ⟨pod, w4, e, w5, _, _, h⟩ | ⟨pod, w4, sp, w5, e, w6, _, _, _, h⟩ |
    ⟨pod, w4, sp, w5, d, w6, e, w7, _, _, _, _, h⟩ |
    ⟨pod, w4, sp, w5, d, w6, paths, w7, _, _, _, _, h⟩
  · simp [h, h1]
  · simp [h, h1, h2]
  · simp [h, h1, h2, h3]
  · simp [h, h1, h2, h3, h4]
  · have := removeCgroupsPath_filter env q (fun p => hq _ rfl) hi paths w7
    rw [h]
    simp only [Outcome.after, List.filter_append, this]
    simp [h1, h2, h3, h4]

/-- Every run of `delete` makes exactly one validation call. -/
theorem delete_validation_calls (env : Collaborators σ ε PodStatus State Pod Spec)
    (cid : String) (force : Bool) (w : σ) :
    ((delete env cid force w).trace.filter (fun ev => ev.call.isValidation)).map
      (fun ev => ev.call) = [.validContainer cid] := by
  have htd : ∀ w3, (teardown env cid w3).trace.filter (fun ev => ev.call.isValidation)
      = [] := fun w3 =>
    teardown_filter env Call.isValidation
      (fun c hc => by cases c <;> simp_all [Call.isTeardown, Call.isValidation])
      (fun _ => rfl) cid w3
  rcases hv : env.validContainer cid w with ⟨e | u, w1⟩
  · rw [delete_of_invalid env cid force w w1 e hv]
    rfl
  · cases force with
    | true =>
      rw [delete_of_forced env cid w w1 hv]
      simp only [Outcome.after, List.filter_append, htd]
      rfl
    | false =>
      have hfil := livenessGate_filter env Call.isValidation
        (fun c hc => by cases c <;> simp_all [Call.isLivenessGate, Call.isValidation])
        cid w1
      rcases hg : livenessGate env cid w1 with ⟨e | u, w3, t⟩
      · rw [delete_of_gate_error env cid w w1 w3 e t hv hg]
        rw [hg] at hfil
        have hfil1 : t.filter (fun ev => ev.call.isValidation) = [] := hfil
        simp only [List.filter_cons, hfil1]
        rfl
      · rw [delete_of_gate_ok env cid w w1 w3 t hv hg]
        rw [hg] at hfil
        have hfil1 : t.filter (fun ev => ev.call.isValidation) = [] := hfil
        simp only [Outcome.after, List.filter_append, htd, List.filter_cons, hfil1]
        rfl

/-- The validation calls of consecutive runs of `delete` name the container IDs,
in order. -/
theorem deleteTraces_validation_calls (env : Collaborators σ ε PodStatus State Pod Spec)
    (force : Bool) :
    ∀ (ids : List String) (w : σ),
      ((deleteTraces env force ids w).filter (fun ev => ev.call.isValidation)).map
        (fun ev => ev.call) = ids.map Call.validContainer := by
  intro ids
  induction ids with
  | nil => intro w; rfl
  | cons c cs ih =>
    intro w
    simp only [deleteTraces, List.filter_append, List.map_append, List.map_cons,
      delete_validation_calls env c force w, ih]
    rfl

theorem worldAfterDeletes_cons (env : Collaborators σ ε PodStatus State Pod Spec)
    (force : Bool) (c : String) (cs : List String) (w : σ) :
    worldAfterDeletes env force (c :: cs) w =
      worldAfterDeletes env force cs (delete env c force w).world :=
  rfl

theorem actionLoop_cons_error (env : Collaborators σ ε PodStatus State Pod Spec)
    (force : Bool) (c : String) (cs : List String) (w : σ) (e : ε)
    (h : (delete env c force w).ret = .error e) :
    actionLoop env force (c :: cs) w =
      ⟨.error e, (delete env c force w).world, (delete env c force w).trace⟩ := by
  simp only [actionLoop, Op.bind_eq]
  exact Op.andThen_error _ _ _ _ _ _ (by rw [← h])

theorem actionLoop_cons_ok (env : Collaborators σ ε PodStatus State Pod Spec)
    (force : Bool) (c : String) (cs : List String) (w : σ)
    (h : (delete env c force w).ret = .ok ()) :
    actionLoop env force (c :: cs) w =
      (actionLoop env force cs (delete env c force w).world).after
        (delete env c force w).trace := by
  simp only [actionLoop, Op.bind_eq]
  exact Op.andThen_ok _ _ _ _ _ _ (by rw [← h])

/-- The loop of the command stops at the first container whose `delete` fails. -/
theorem actionLoop_fail (env : Collaborators σ ε PodStatus State Pod Spec) (force : Bool) :
    ∀ (args : List String) (w : σ) (k : Nat) (cID : String) (e : ε),
      args[k]? = some cID →
      (∀ (j : Nat) (c : String), j < k → args[j]? = some c →
        (delete env c force (worldAfterDeletes env force (args.take j) w)).ret = .ok ()) →
      (delete env cID force (worldAfterDeletes env force (args.take k) w)).ret = .error e →
      actionLoop env force args w =
        ⟨.error e, worldAfterDeletes env force (args.take (k + 1)) w,
          deleteTraces env force (args.take (k + 1)) w⟩ := by
  intro args
  induction args with
  | nil => intro w k cID e hk; simp at hk
  | cons c cs ih =>
    intro w k cID e hk hbefore hfail
    cases k with
    | zero =>
      simp only [List.getElem?_cons_zero, Option.some.injEq] at hk
      subst hk
      have hfail1 : (delete env c force w).ret = .error e := hfail
      rw [actionLoop_cons_error env force c cs w e hfail1]
      simp [worldAfterDeletes, deleteTraces]
    | succ k =>
      have h0 : (delete env c force w).ret = .ok () :=
        hbefore 0 c (Nat.succ_pos k) (by simp)
      rw [actionLoop_cons_ok env force c cs w h0]
      have hk1 : cs[k]? = some cID := by simpa using hk
      have hrec := ih (delete env c force w).world k cID e hk1
        (fun j r hj hr => by
          have := hbefore (j + 1) r (Nat.succ_lt_succ hj) (by simpa using hr)
          simpa [worldAfterDeletes_cons] using this)
        (by simpa [worldAfterDeletes_cons] using hfail)
      rw [hrec]
      simp [Outcome.after, worldAfterDeletes_cons, deleteTraces]

/-- The loop of the command runs through when every `delete` succeeds. -/
theorem actionLoop_ok (env : Collaborators σ ε PodStatus State Pod Spec) (force : Bool) :
    ∀ (args : List String) (w : σ),
      (∀ (j : Nat) (c : String), args[j]? = some c →
        (delete env c force (worldAfterDeletes env force (args.take j) w)).ret = .ok ()) →
      actionLoop env force args w =
        ⟨.ok (), worldAfterDeletes env force args w, deleteTraces env force args w⟩ := by
  intro args
  induction args with
  | nil => intro w _; rfl
  | cons c cs ih =>
    intro w hall
    have h0 : (delete env c force w).ret = .ok () := hall 0 c (by simp)
    rw [actionLoop_cons_ok env force c cs w h0]
    have hrec := ih (delete env c force w).world
      (fun j r hr => by
        have := hall (j + 1) r (by simpa using hr)
        simpa [worldAfterDeletes_cons] using this)
    rw [hrec]
    simp [Outcome.after, worldAfterDeletes_cons, deleteTraces]

theorem action_of_ne (env : Collaborators σ ε PodStatus State Pod Spec)
    (args : List String) (force : Bool) (h : args ≠ []) :
    deleteCommand.Action env args force = actionLoop env force args := by
  cases args with
  | nil => exact absurd rfl h
  | cons c cs => simp [deleteCommand.Action]

end Lemmas




section Claims

variable {σ ε PodStatus State Pod Spec : Type}

/-- C1: when `validContainer` returns an error, `delete` returns exactly that
error and the validation is the only collaborator call made, whatever the
container ID and the force flag. -/
theorem delete_invalid_container_aborts
    (env : Collaborators σ ε PodStatus State Pod Spec) (containerID : String)
    (force : Bool) (w w1 : σ) (e : ε)
    (h : env.validContainer containerID w = (.error e, w1)) :
    (delete env containerID force w).ret = .error e ∧
    (delete env containerID force w).trace = [⟨.validContainer containerID, true⟩] ∧
    (delete env containerID force w).world = w1 := by
  rw [delete_of_invalid env containerID force w w1 e h]
  exact ⟨rfl, rfl, rfl⟩

/-- Witness of C1: deleting the unknown container "nginx". -/
theorem delete_invalid_container_aborts_witness :
    (fake stopped).validContainer "nginx" host
        = (.error "Container ID does not exist", host) ∧
    ((delete (fake stopped) "nginx" true host).ret
        = .error "Container ID does not exist" ∧
      (delete (fake stopped) "nginx" true host).trace
        = [⟨.validContainer "nginx", true⟩] ∧
      (delete (fake stopped) "nginx" true host).world = host) :=
  ⟨rfl, delete_invalid_container_aborts (fake stopped) "nginx" true host host
    "Container ID does not exist" rfl⟩

/-- C2: with `force = false`, when validation, the status fetch and the state
translation succeed and the liveness check reports running, `delete` returns the
error "Container still running, should be stopped"; the calls made are the
validation and the three calls of the gate, so no sandbox stop, configuration
fetch, sandbox delete, path resolution or path removal is made. -/
theorem delete_refuses_running_container
    (env : Collaborators σ ε PodStatus State Pod Spec) (containerID : String)
    (w w1 w2 w2a w3 : σ) (podStatus : PodStatus) (state : State)
    (hvalid : env.validContainer containerID w = (.ok (), w1))
    (hstatus : env.StatusPod containerID w1 = (.ok podStatus, w2))
    (hstate : env.StatusToOCIState podStatus w2 = (.ok state, w2a))
    (hrunning : env.processRunning (env.Pid state) w2a = (.ok true, w3)) :
    (delete env containerID false w).ret
        = .error (env.Errorf "Container still running, should be stopped") ∧
    (delete env containerID false w).trace
        = [⟨.validContainer containerID, false⟩, ⟨.StatusPod containerID, false⟩,
            ⟨.StatusToOCIState, false⟩, ⟨.processRunning (env.Pid state), false⟩] ∧
    (∀ ev ∈ (delete env containerID false w).trace, ev.call.isTeardown = false) := by
  have hg : livenessGate env containerID w1 =
      ⟨.error (env.Errorf "Container still running, should be stopped"), w3,
        [⟨.StatusPod containerID, false⟩, ⟨.StatusToOCIState, false⟩,
          ⟨.processRunning (env.Pid state), false⟩]⟩ := by
    simp [livenessGate, Op.bind_eq, Op.call_andThen_ok _ _ _ _ _ _ hstatus,
      Op.call_andThen_ok _ _ _ _ _ _ hstate, Op.call_andThen_ok _ _ _ _ _ _ hrunning,
      Outcome.after, Op.fail]
  rw [delete_of_gate_error env containerID w w1 w3 _ _ hvalid hg]
  refine ⟨rfl, rfl, ?_⟩
  intro ev hev
  simp only [List.mem_cons, List.mem_singleton, List.not_mem_nil, or_false] at hev
  rcases hev with h | h | h | h <;> subst h <;> rfl

/-- Witness of C2: "ubuntu01" is still running and the deletion is not forced. -/
theorem delete_refuses_running_container_witness :
    (delete (fake stillRunning) "ubuntu01" false host).ret
        = .error "Container still running, should be stopped" ∧
    (delete (fake stillRunning) "ubuntu01" false host).trace
        = [⟨.validContainer "ubuntu01", false⟩, ⟨.StatusPod "ubuntu01", false⟩,
            ⟨.StatusToOCIState, false⟩, ⟨.processRunning 4242, false⟩] ∧
    (∀ ev ∈ (delete (fake stillRunning) "ubuntu01" false host).trace,
      ev.call.isTeardown = false) :=
  delete_refuses_running_container (fake stillRunning) "ubuntu01" host host host host host
    () 4242 rfl rfl rfl rfl

/-- C3: with `force = false`, when the status fetch, the state translation or
the liveness check returns an error, `delete` returns that error and makes no
sandbox stop, configuration fetch, sandbox delete, path resolution or path
removal: a failed lookup does not count as "not running". -/
theorem delete_aborts_on_liveness_failure
    (env : Collaborators σ ε PodStatus State Pod Spec) (containerID : String)
    (w w1 : σ) (e : ε)
    (hvalid : env.validContainer containerID w = (.ok (), w1))
    (hgate :
      (∃ w2, env.StatusPod containerID w1 = (.error e, w2)) ∨
      (∃ podStatus w2 w2a, env.StatusPod containerID w1 = (.ok podStatus, w2) ∧
        env.StatusToOCIState podStatus w2 = (.error e, w2a)) ∨
      (∃ podStatus w2 state w2a w3, env.StatusPod containerID w1 = (.ok podStatus, w2) ∧
        env.StatusToOCIState podStatus w2 = (.ok state, w2a) ∧
        env.processRunning (env.Pid state) w2a = (.error e, w3))) :
    (delete env containerID false w).ret = .error e ∧
    (∀ ev ∈ (delete env containerID false w).trace, ev.call.isTeardown = false) := by
  rcases hgate with ⟨w2, h2⟩ | ⟨ps, w2, w2a, h2, h3⟩ | ⟨ps, w2, st, w2a, w3, h2, h3, h4⟩
  · have hg : livenessGate env containerID w1 =
        ⟨.error e, w2, [⟨.StatusPod containerID, true⟩]⟩ := by
      simp [livenessGate, Op.bind_eq, Op.call_andThen_error _ _ _ _ _ _ h2]
    rw [delete_of_gate_error env containerID w w1 w2 _ _ hvalid hg]
    refine ⟨rfl, ?_⟩
    intro ev hev
    simp only [List.mem_cons, List.mem_singleton, List.not_mem_nil, or_false] at hev
    rcases hev with h | h <;> subst h <;> rfl
  · have hg : livenessGate env containerID w1 =
        ⟨.error e, w2a, [⟨.StatusPod containerID, false⟩, ⟨.StatusToOCIState, true⟩]⟩ := by
      simp [livenessGate, Op.bind_eq, Op.call_andThen_ok _ _ _ _ _ _ h2,
        Op.call_andThen_error _ _ _ _ _ _ h3, Outcome.after]
    rw [delete_of_gate_error env containerID w w1 w2a _ _ hvalid hg]
    refine ⟨rfl, ?_⟩
    intro ev hev
    simp only [List.mem_cons, List.mem_singleton, List.not_mem_nil, or_false] at hev
    rcases hev with h | h | h <;> subst h <;> rfl
  · have hg : livenessGate env containerID w1 =
        ⟨.error e, w3, [⟨.StatusPod containerID, false⟩, ⟨.StatusToOCIState, false⟩,
          ⟨.processRunning (env.Pid st), true⟩]⟩ := by
      simp [livenessGate, Op.bind_eq, Op.call_andThen_ok _ _ _ _ _ _ h2,
        Op.call_andThen_ok _ _ _ _ _ _ h3, Op.call_andThen_error _ _ _ _ _ _ h4,
        Outcome.after]
    rw [delete_of_gate_error env containerID w w1 w3 _ _ hvalid hg]
    refine ⟨rfl, ?_⟩
    intro ev hev
    simp only [List.mem_cons, List.mem_singleton, List.not_mem_nil, or_false] at hev
    rcases hev with h | h | h | h <;> subst h <;> rfl

/-- Witness of C3: the liveness lookup of "ubuntu01" fails. -/
theorem delete_aborts_on_liveness_failure_witness :
    (delete (fake lookupBroken) "ubuntu01" false host).ret = .error "lookup failed" ∧
    (∀ ev ∈ (delete (fake lookupBroken) "ubuntu01" false host).trace,
      ev.call.isTeardown = false) :=
  delete_aborts_on_liveness_failure (fake lookupBroken) "ubuntu01" host host
    "lookup failed" rfl (Or.inr (Or.inr ⟨(), host, 4242, host, host, rfl, rfl, rfl⟩))

/-- C8: on the empty path list `removeCgroupsPath` returns success, leaves the
world as it was and makes no `os.RemoveAll` call (its only trace is the log
note). -/
theorem removeCgroupsPath_empty_is_noop
    (env : Collaborators σ ε PodStatus State Pod Spec) (w : σ) :
    (removeCgroupsPath env [] w).ret = .ok () ∧
    (removeCgroupsPath env [] w).world = w ∧
    (removeCgroupsPath env [] w).trace
        = [⟨.Info "Cgroups files not removed because cgroupsPath was empty", false⟩] ∧
    (∀ ev ∈ (removeCgroupsPath env [] w).trace, ev.call.isRemoval = false) := by
  rw [removeCgroupsPath_nil]
  refine ⟨rfl, rfl, rfl, ?_⟩
  intro ev hev
  simp only [List.mem_singleton] at hev
  subst hev
  rfl

/-- C5: in every run of `delete` the calls on the sandbox are, in this order,
a stop, then (only after a successful stop) a configuration fetch, then (only
after a successful configuration fetch) a delete, each made at most once: the
sandbox calls of the trace, with their outcomes, are one of the four listed
sequences. -/
theorem delete_sandbox_call_order
    (env : Collaborators σ ε PodStatus State Pod Spec) (containerID : String)
    (force : Bool) (w : σ) :
    (delete env containerID force w).trace.filter (fun ev => ev.call.isSandboxStep)
        = [] ∨
    (delete env containerID force w).trace.filter (fun ev => ev.call.isSandboxStep)
        = [⟨.StopPod containerID, true⟩] ∨
    (delete env containerID force w).trace.filter (fun ev => ev.call.isSandboxStep)
        = [⟨.StopPod containerID, false⟩, ⟨.PodToOCIConfig, true⟩] ∨
    ∃ b, (delete env containerID force w).trace.filter (fun ev => ev.call.isSandboxStep)
        = [⟨.StopPod containerID, false⟩, ⟨.PodToOCIConfig, false⟩,
            ⟨.DeletePod containerID, b⟩] := by
  rcases hv : env.validContainer containerID w with ⟨e | u, w1⟩
  · left
    rw [delete_of_invalid env containerID force w w1 e hv]
    simp [Call.isSandboxStep]
  · have key : ∀ (t : List Event) (w3 : σ),
        t.filter (fun ev => ev.call.isSandboxStep) = [] →
        ((⟨.validContainer containerID, false⟩ :: t) ++ (teardown env containerID w3).trace).filter
            (fun ev => ev.call.isSandboxStep) =
          (teardown env containerID w3).trace.filter (fun ev => ev.call.isSandboxStep) := by
      intro t w3 ht
      simp [List.filter_cons, Call.isSandboxStep]
      intro a ha
      have := List.filter_eq_nil_iff.mp ht a ha
      simpa [Call.isSandboxStep] using this
    cases force with
    | true =>
      right
      rw [delete_of_forced env containerID w w1 hv]
      have := key [] w1 rfl
      simp only [Outcome.after] at this ⊢
      rw [this]
      exact teardown_sandbox_steps env containerID w1
    | false =>
      have hfil := livenessGate_filter env Call.isSandboxStep
        (fun c hc => by cases c <;> simp_all [Call.isLivenessGate, Call.isSandboxStep])
        containerID w1
      rcases hg : livenessGate env containerID w1 with ⟨e | u, w3, t⟩
      · left
        rw [delete_of_gate_error env containerID w w1 w3 e t hv hg]
        rw [hg] at hfil
        simp only [List.filter_cons]
        simpa [Call.isSandboxStep] using hfil
      · right
        rw [delete_of_gate_ok env containerID w w1 w3 t hv hg]
        rw [hg] at hfil
        have := key t w3 hfil
        simp only [Outcome.after] at this ⊢
        rw [this]
        exact teardown_sandbox_steps env containerID w3

/-- C4, as stated, fails: here the configuration fetch succeeds and the
sandbox delete then fails; `delete` returns that error without resolving or
removing any path, and the cgroup paths are still on the host. -/
theorem delete_skips_cleanup_when_sandbox_delete_fails :
    (⟨.PodToOCIConfig, false⟩ : Event)
        ∈ (delete (fake deleteBroken) "ubuntu01" true host).trace ∧
    (∀ ev ∈ (delete (fake deleteBroken) "ubuntu01" true host).trace,
      ev.call ≠ .processCgroupsPath ∧ ev.call.isRemoval = false) ∧
    (delete (fake deleteBroken) "ubuntu01" true host).ret = .error "delete failed" ∧
    (delete (fake deleteBroken) "ubuntu01" true host).world = host := by
  have h : delete (fake deleteBroken) "ubuntu01" true host =
      ⟨.error "delete failed", host,
        [⟨.validContainer "ubuntu01", false⟩, ⟨.StopPod "ubuntu01", false⟩,
          ⟨.PodToOCIConfig, false⟩, ⟨.DeletePod "ubuntu01", true⟩]⟩ := rfl
  rw [h]
  refine ⟨by decide, by decide, rfl, rfl⟩

/-- C4, amended: in every run of `delete` in which the configuration fetch and
the sandbox delete both succeed, path resolution is called; and when path
resolution succeeds too, `removeCgroupsPath` is run on the resolved list right
after it, and its result is the result of `delete`.  (A successful sandbox
delete in the trace is all that is assumed: by C5 it comes only after a
successful configuration fetch.) -/
theorem delete_cleans_up_after_sandbox_delete
    (env : Collaborators σ ε PodStatus State Pod Spec) (containerID : String)
    (force : Bool) (w : σ)
    (hdelete : (⟨.DeletePod containerID, false⟩ : Event)
      ∈ (delete env containerID force w).trace) :
    (∃ b, (⟨.processCgroupsPath, b⟩ : Event) ∈ (delete env containerID force w).trace) ∧
    ((⟨.processCgroupsPath, false⟩ : Event) ∈ (delete env containerID force w).trace →
      ∃ (ociSpec : Spec) (w6 : σ) (paths : List String) (w7 : σ) (before : List Event),
        env.processCgroupsPath ociSpec w6 = (.ok paths, w7) ∧
        delete env containerID force w =
          (removeCgroupsPath env paths w7).after
            (before ++ [⟨.processCgroupsPath, false⟩])) := by
  rcases delete_shape env containerID force w with
    ⟨e, w3, t, hno, h⟩ | ⟨w1, w3, t, _, _, hno, h⟩
  · rw [h] at hdelete
    have := hno _ hdelete
    simp [Call.isTeardown] at this
  · rw [h] at hdelete ⊢
    have hnot : ∀ (c : Call) (b : Bool), c.isTeardown = true → (⟨c, b⟩ : Event) ∉ t := by
      intro c b hc hmem
      have := hno _ hmem
      simp [hc] at this
    simp only [Outcome.after, List.mem_append] at hdelete ⊢
    rcases hdelete with hd | hd
    · exact absurd hd (hnot _ _ rfl)
    rcases teardown_cases env containerID w3 with
      ⟨e, w4, _, h5⟩ | ⟨pod, w4, e, w5, _, _, h5⟩ | ⟨pod, w4, sp, w5, e, w6, _, _, _, h5⟩ |
      ⟨pod, w4, sp, w5, d, w6, e, w7, _, _, _, _, h5⟩ |
      ⟨pod, w4, sp, w5, d, w6, paths, w7, _, _, _, h7, h5⟩
    · rw [h5] at hd; simp at hd
    · rw [h5] at hd; simp at hd
    · rw [h5] at hd; simp at hd
    · rw [h5]
      refine ⟨⟨true, Or.inr (by simp)⟩, ?_⟩
      intro hres
      rcases hres with hres | hres
      · exact absurd hres (hnot _ _ rfl)
      · simp at hres
    · rw [h5]
      refine ⟨⟨false, Or.inr (by simp [Outcome.after])⟩, ?_⟩
      intro _
      refine ⟨sp, w6, paths, w7,
        t ++ [⟨.StopPod containerID, false⟩, ⟨.PodToOCIConfig, false⟩,
          ⟨.DeletePod containerID, false⟩], h7, ?_⟩
      simp [Outcome.after]

/-- Witness of C4, amended: the forced deletion of the stopped "ubuntu01". -/
theorem delete_cleans_up_after_sandbox_delete_witness :
    (∃ b, (⟨.processCgroupsPath, b⟩ : Event)
      ∈ (delete (fake stopped) "ubuntu01" true host).trace) ∧
    ((⟨.processCgroupsPath, false⟩ : Event)
        ∈ (delete (fake stopped) "ubuntu01" true host).trace →
      ∃ (ociSpec : List String) (w6 : List String) (paths : List String)
        (w7 : List String) (before : List Event),
        (fake stopped).processCgroupsPath ociSpec w6 = (.ok paths, w7) ∧
        delete (fake stopped) "ubuntu01" true host =
          (removeCgroupsPath (fake stopped) paths w7).after
            (before ++ [⟨.processCgroupsPath, false⟩])) :=
  delete_cleans_up_after_sandbox_delete (fake stopped) "ubuntu01" true host
    (by decide)

/-- C7: a forced `delete` starts with the validation and makes none of the
calls of the liveness gate (status fetch, state translation, liveness check).
After a successful validation it runs the teardown (lines 90-117) from the
world the validation left, and an unforced deletion whose liveness check
reports not running runs the very same teardown from the world its gate left,
whatever the collaborators do.  The teardown is the sandbox stop, the
configuration fetch, the sandbox delete, the path resolution and
`removeCgroupsPath`, each made when the one before succeeded, the first error
being returned.  So when the two runs reach the sandbox stop in the same world
they return the same result, end in the same world, and the forced trace is
the unforced trace without the three gate calls. -/
theorem delete_force_skips_only_liveness_gate
    (env : Collaborators σ ε PodStatus State Pod Spec) (containerID : String) (w : σ) :
    (∃ b, (delete env containerID true w).trace.head?
        = some ⟨.validContainer containerID, b⟩) ∧
    (∀ ev ∈ (delete env containerID true w).trace, ev.call.isLivenessGate = false) ∧
    (∀ (w1 : σ), env.validContainer containerID w = (.ok (), w1) →
      delete env containerID true w =
        (teardown env containerID w1).after [⟨.validContainer containerID, false⟩]) ∧
    (∀ (w0 v1 v2 v2a w3 : σ) (podStatus : PodStatus) (state : State),
      env.validContainer containerID w0 = (.ok (), v1) →
      env.StatusPod containerID v1 = (.ok podStatus, v2) →
      env.StatusToOCIState podStatus v2 = (.ok state, v2a) →
      env.processRunning (env.Pid state) v2a = (.ok false, w3) →
      delete env containerID false w0 =
        (teardown env containerID w3).after
          [⟨.validContainer containerID, false⟩, ⟨.StatusPod containerID, false⟩,
            ⟨.StatusToOCIState, false⟩, ⟨.processRunning (env.Pid state), false⟩]) ∧
    (∀ (w3 : σ),
      (∀ (e : ε) (w4 : σ), env.StopPod containerID w3 = (.error e, w4) →
        teardown env containerID w3 = ⟨.error e, w4, [⟨.StopPod containerID, true⟩]⟩) ∧
      (∀ (pod : Pod) (w4 : σ) (e : ε) (w5 : σ),
        env.StopPod containerID w3 = (.ok pod, w4) →
        env.PodToOCIConfig pod w4 = (.error e, w5) →
        teardown env containerID w3 =
          ⟨.error e, w5, [⟨.StopPod containerID, false⟩, ⟨.PodToOCIConfig, true⟩]⟩) ∧
      (∀ (pod : Pod) (w4 : σ) (ociSpec : Spec) (w5 : σ) (e : ε) (w6 : σ),
        env.StopPod containerID w3 = (.ok pod, w4) →
        env.PodToOCIConfig pod w4 = (.ok ociSpec, w5) →
        env.DeletePod containerID w5 = (.error e, w6) →
        teardown env containerID w3 =
          ⟨.error e, w6, [⟨.StopPod containerID, false⟩, ⟨.PodToOCIConfig, false⟩,
            ⟨.DeletePod containerID, true⟩]⟩) ∧
      (∀ (pod : Pod) (w4 : σ) (ociSpec : Spec) (w5 : σ) (deleted : Pod) (w6 : σ) (e : ε)
          (w7 : σ),
        env.StopPod containerID w3 = (.ok pod, w4) →
        env.PodToOCIConfig pod w4 = (.ok ociSpec, w5) →
        env.DeletePod containerID w5 = (.ok deleted, w6) →
        env.processCgroupsPath ociSpec w6 = (.error e, w7) →
        teardown env containerID w3 =
          ⟨.error e, w7, [⟨.StopPod containerID, false⟩, ⟨.PodToOCIConfig, false⟩,
            ⟨.DeletePod containerID, false⟩, ⟨.processCgroupsPath, true⟩]⟩) ∧
      (∀ (pod : Pod) (w4 : σ) (ociSpec : Spec) (w5 : σ) (deleted : Pod) (w6 : σ)
          (paths : List String) (w7 : σ),
        env.StopPod containerID w3 = (.ok pod, w4) →
        env.PodToOCIConfig pod w4 = (.ok ociSpec, w5) →
        env.DeletePod containerID w5 = (.ok deleted, w6) →
        env.processCgroupsPath ociSpec w6 = (.ok paths, w7) →
        teardown env containerID w3 =
          (removeCgroupsPath env paths w7).after
            [⟨.StopPod containerID, false⟩, ⟨.PodToOCIConfig, false⟩,
              ⟨.DeletePod containerID, false⟩, ⟨.processCgroupsPath, false⟩])) ∧
    (∀ (w0 v1 w1 : σ),
      env.validContainer containerID w = (.ok (), w1) →
      env.validContainer containerID w0 = (.ok (), v1) →
      GatePasses env containerID false v1 w1 →
      (delete env containerID true w).ret = (delete env containerID false w0).ret ∧
      (delete env containerID true w).world = (delete env containerID false w0).world ∧
      (delete env containerID true w).trace =
        (delete env containerID false w0).trace.filter
          (fun ev => !ev.call.isLivenessGate)) := by
  refine ⟨?_, ?_, ?_, ?_, ?_, ?_⟩
  · rcases hv : env.validContainer containerID w with ⟨e | u, w1⟩
    · exact ⟨true, by rw [delete_of_invalid env containerID true w w1 e hv]; rfl⟩
    · exact ⟨false, by rw [delete_of_forced env containerID w w1 hv]; rfl⟩
  · rcases hv : env.validContainer containerID w with ⟨e | u, w1⟩
    · rw [delete_of_invalid env containerID true w w1 e hv]
      intro ev hev
      simp only [List.mem_singleton] at hev
      subst hev
      rfl
    · rw [delete_of_forced env containerID w w1 hv]
      intro ev hev
      simp only [Outcome.after, List.mem_append, List.mem_singleton] at hev
      rcases hev with h | h
      · subst h; rfl
      · exact teardown_no_gate_call env containerID w1 ev h
  · intro w1 hv
    exact delete_of_forced env containerID w w1 hv
  · intro w0 v1 v2 v2a w3 ps st hv h2 h3 h4
    have hg : livenessGate env containerID v1 =
        ⟨.ok (), w3, [⟨.StatusPod containerID, false⟩, ⟨.StatusToOCIState, false⟩,
          ⟨.processRunning (env.Pid st), false⟩]⟩ := by
      simp [livenessGate, Op.bind_eq, Op.call_andThen_ok _ _ _ _ _ _ h2,
        Op.call_andThen_ok _ _ _ _ _ _ h3, Op.call_andThen_ok _ _ _ _ _ _ h4,
        Outcome.after, Op.pure_eq, Op.ret]
    exact delete_of_gate_ok env containerID w0 v1 w3 _ hv hg
  · intro w3
    refine ⟨?_, ?_, ?_, ?_, ?_⟩
    · intro e w4 h4
      simp [teardown, Op.bind_eq, Op.call_andThen_error _ _ _ _ _ _ h4]
    · intro pod w4 e w5 h4 h5
      simp [teardown, Op.bind_eq, Op.call_andThen_ok _ _ _ _ _ _ h4,
        Op.call_andThen_error _ _ _ _ _ _ h5, Outcome.after]
    · intro pod w4 sp w5 e w6 h4 h5 h6
      simp [teardown, Op.bind_eq, Op.call_andThen_ok _ _ _ _ _ _ h4,
        Op.call_andThen_ok _ _ _ _ _ _ h5,
        Op.call_andThen_error _ _ _ _ _ _ h6, Outcome.after]
    · intro pod w4 sp w5 d w6 e w7 h4 h5 h6 h7
      simp [teardown, Op.bind_eq, Op.call_andThen_ok _ _ _ _ _ _ h4,
        Op.call_andThen_ok _ _ _ _ _ _ h5, Op.call_andThen_ok _ _ _ _ _ _ h6,
        Op.call_andThen_error _ _ _ _ _ _ h7, Outcome.after]
    · intro pod w4 sp w5 d w6 paths w7 h4 h5 h6 h7
      exact teardown_of_resolved env containerID w3 w4 w5 w6 w7 pod d sp paths h4 h5 h6 h7
  · intro w0 v1 w1 hv hv0 hpass
    obtain ⟨pid, hg⟩ := livenessGate_of_passes env containerID v1 w1 hpass
    rw [delete_of_forced env containerID w w1 hv,
      delete_of_gate_ok env containerID w0 v1 w1 _ hv0 hg]
    refine ⟨rfl, rfl, ?_⟩
    have hkeep : (teardown env containerID w1).trace.filter
        (fun ev => !ev.call.isLivenessGate) = (teardown env containerID w1).trace := by
      rw [List.filter_eq_self]
      intro ev hev
      simp [teardown_no_gate_call env containerID w1 ev hev]
    simp only [Outcome.after, List.filter_append, hkeep]
    rfl

/-- Witness of C7: the forced deletion of the stopped container "ubuntu01" is
the validation followed by the teardown; every teardown call is made and both
cgroup paths are removed.  The unforced deletion from the same host (the gate
of the test doubles does not change the world) gives the same result with the
three gate calls in between. -/
theorem delete_force_skips_only_liveness_gate_witness :
    (fake stopped).validContainer "ubuntu01" host = (.ok (), host) ∧
    delete (fake stopped) "ubuntu01" true host =
      (teardown (fake stopped) "ubuntu01" host).after
        [⟨.validContainer "ubuntu01", false⟩] ∧
    (teardown (fake stopped) "ubuntu01" host).trace =
      [⟨.StopPod "ubuntu01", false⟩, ⟨.PodToOCIConfig, false⟩,
        ⟨.DeletePod "ubuntu01", false⟩, ⟨.processCgroupsPath, false⟩,
        ⟨.RemoveAll "/sys/fs/cgroup/cpu/ubuntu01", false⟩,
        ⟨.RemoveAll "/sys/fs/cgroup/memory/ubuntu01", false⟩] ∧
    ((delete (fake stopped) "ubuntu01" true host).ret
        = (delete (fake stopped) "ubuntu01" false host).ret ∧
      (delete (fake stopped) "ubuntu01" true host).world
        = (delete (fake stopped) "ubuntu01" false host).world ∧
      (delete (fake stopped) "ubuntu01" true host).trace =
        (delete (fake stopped) "ubuntu01" false host).trace.filter
          (fun ev => !ev.call.isLivenessGate)) :=
  ⟨rfl,
    (delete_force_skips_only_liveness_gate (fake stopped) "ubuntu01" host).2.2.1 host rfl,
    congrArg Outcome.trace
      (((delete_force_skips_only_liveness_gate (fake stopped) "ubuntu01" host).2.2.2.2.1
        host).2.2.2.2 () host stopped.paths host () host stopped.paths host
        rfl rfl rfl rfl),
    (delete_force_skips_only_liveness_gate (fake stopped) "ubuntu01" host).2.2.2.2.2
      host host host rfl rfl (Or.inr ⟨rfl, (), host, 4242, host, rfl, rfl, rfl⟩)⟩

/-- C6: on a non-empty path list `removeCgroupsPath` calls `os.RemoveAll` on the
paths in list order.  If the removal of the path at index `i` fails with `e`
and every removal before it succeeded, the calls made are exactly one
successful call for each of the paths before index `i` followed by the failing
call on the path at index `i`, nothing is called after it, and the result is
`e`.  If every removal succeeds, the calls are exactly one call for each path,
in order, and the result is success. -/
theorem removeCgroupsPath_stops_at_first_failure
    (env : Collaborators σ ε PodStatus State Pod Spec) (paths : List String) (w : σ)
    (hne : paths ≠ []) :
    (∀ (i : Nat) (p : String) (e : ε),
      paths[i]? = some p →
      (∀ (j : Nat) (q : String), j < i → paths[j]? = some q →
        (env.RemoveAll q (worldAfterRemovals env (paths.take j) w)).1 = .ok ()) →
      (env.RemoveAll p (worldAfterRemovals env (paths.take i) w)).1 = .error e →
      (removeCgroupsPath env paths w).ret = .error e ∧
      (removeCgroupsPath env paths w).trace =
        (paths.take i).map (fun q => ⟨.RemoveAll q, false⟩) ++ [⟨.RemoveAll p, true⟩] ∧
      (removeCgroupsPath env paths w).world =
        worldAfterRemovals env (paths.take (i + 1)) w) ∧
    ((∀ (j : Nat) (q : String), paths[j]? = some q →
        (env.RemoveAll q (worldAfterRemovals env (paths.take j) w)).1 = .ok ()) →
      (removeCgroupsPath env paths w).ret = .ok () ∧
      (removeCgroupsPath env paths w).trace =
        paths.map (fun q => ⟨.RemoveAll q, false⟩) ∧
      (removeCgroupsPath env paths w).world = worldAfterRemovals env paths w) := by
  rw [removeCgroupsPath_of_ne env paths hne]
  constructor
  · intro i p e hp hbefore hfail
    rw [removeLoop_fail env paths w i p e hp hbefore hfail]
    exact ⟨rfl, rfl, rfl⟩
  · intro hall
    rw [removeLoop_ok env paths w hall]
    exact ⟨rfl, rfl, rfl⟩

/-- Witness of C6: three paths, the removal of the second fails; the first is
removed, the second is tried and the third is left alone. -/
theorem removeCgroupsPath_stops_at_first_failure_witness :
    threePaths ≠ [] ∧
    ((removeCgroupsPath (fake secondStuck) threePaths host).ret
        = .error "permission denied" ∧
      (removeCgroupsPath (fake secondStuck) threePaths host).trace
        = [⟨.RemoveAll "/sys/fs/cgroup/cpu/ubuntu01", false⟩,
            ⟨.RemoveAll "/sys/fs/cgroup/memory/ubuntu01", true⟩] ∧
      (removeCgroupsPath (fake secondStuck) threePaths host).world
        = ["/sys/fs/cgroup/memory/ubuntu01", "/sys/fs/cgroup/cpu/other"]) :=
  ⟨by decide,
    (removeCgroupsPath_stops_at_first_failure (fake secondStuck) threePaths host
      (by decide)).1 1 "/sys/fs/cgroup/memory/ubuntu01" "permission denied" rfl
      (fun j q hj hq => by
        obtain rfl : j = 0 := by omega
        obtain rfl : "/sys/fs/cgroup/cpu/ubuntu01" = q := by simpa [threePaths] using hq
        rfl)
      rfl⟩

/-- C9: `delete` returns success exactly when every stage succeeds.  If
validation, the liveness gate, sandbox stop, configuration fetch, sandbox
delete, path resolution and every path removal succeed, `delete` returns
success, the removals in its trace are one successful removal for each path of
the resolved list, in order, and, for a removal that deletes its path and never
brings a path back, every resolved path is absent in the final world.
Conversely, a `delete` that returns success went through all those stages
successfully. -/
theorem delete_succeeds_iff_all_stages
    (env : Collaborators σ ε PodStatus State Pod Spec) (containerID : String)
    (force : Bool) (w : σ) :
    (∀ (paths : List String) (w7 : σ),
      AllStagesSucceed env containerID force w paths w7 →
      (delete env containerID force w).ret = .ok () ∧
      (delete env containerID force w).world = worldAfterRemovals env paths w7 ∧
      (delete env containerID force w).trace.filter (fun ev => ev.call.isRemoval) =
        paths.map (fun q => ⟨.RemoveAll q, false⟩) ∧
      (∀ present : σ → String → Prop,
        (∀ (p : String) (v : σ), (env.RemoveAll p v).1 = .ok () →
          ¬ present (env.RemoveAll p v).2 p) →
        (∀ (p q : String) (v : σ), (env.RemoveAll p v).1 = .ok () →
          ¬ present v q → ¬ present (env.RemoveAll p v).2 q) →
        ∀ q ∈ paths, ¬ present (delete env containerID force w).world q)) ∧
    ((delete env containerID force w).ret = .ok () →
      ∃ (paths : List String) (w7 : σ),
        AllStagesSucceed env containerID force w paths w7) := by
  constructor
  · rintro paths w7 ⟨w1, w3, pod, w4, sp, w5, d, w6, hv, hgate, h4, h5, h6, h7, hall⟩
    obtain ⟨hret, hworld, htrace⟩ := removeCgroupsPath_ok env paths w7 hall
    have htd := teardown_of_resolved env containerID w3 w4 w5 w6 w7 pod d sp paths
      h4 h5 h6 h7
    have main : (delete env containerID force w).ret = .ok () ∧
        (delete env containerID force w).world = worldAfterRemovals env paths w7 ∧
        (delete env containerID force w).trace.filter (fun ev => ev.call.isRemoval) =
          paths.map (fun q => ⟨.RemoveAll q, false⟩) := by
      cases force with
      | true =>
        rcases hgate with ⟨_, rfl⟩ | ⟨hf, _⟩
        · rw [delete_of_forced env containerID w w3 hv, htd]
          refine ⟨hret, hworld, ?_⟩
          simp only [Outcome.after, List.filter_append, htrace]
          rfl
        · cases hf
      | false =>
        obtain ⟨pid, hg⟩ := livenessGate_of_passes env containerID w1 w3 hgate
        rw [delete_of_gate_ok env containerID w w1 w3 _ hv hg, htd]
        refine ⟨hret, hworld, ?_⟩
        simp only [Outcome.after, List.filter_append, htrace]
        rfl
    refine ⟨main.1, main.2.1, main.2.2, ?_⟩
    intro present hgone hkeep q hq
    rw [main.2.1]
    exact removed_paths_absent env present hgone hkeep paths w7 hall q hq
  · intro hret
    rcases delete_shape env containerID force w with
      ⟨e, w3, t, _, h⟩ | ⟨w1, w3, t, hv, hgate, _, h⟩
    · rw [h] at hret
      cases hret
    · rw [h] at hret
      have hret1 : (teardown env containerID w3).ret = .ok () := hret
      rcases teardown_cases env containerID w3 with
        ⟨e, w4, _, h5⟩ | ⟨pod, w4, e, w5, _, _, h5⟩ | ⟨pod, w4, sp, w5, e, w6, _, _, _, h5⟩ |
        ⟨pod, w4, sp, w5, d, w6, e, w7, _, _, _, _, h5⟩ |
        ⟨pod, w4, sp, w5, d, w6, paths, w7, g4, g5, g6, g7, h5⟩
      · rw [h5] at hret1; cases hret1
      · rw [h5] at hret1; cases hret1
      · rw [h5] at hret1; cases hret1
      · rw [h5] at hret1; cases hret1
      · rw [h5] at hret1
        exact ⟨paths, w7, w1, w3, pod, w4, sp, w5, d, w6, hv, hgate, g4, g5, g6, g7,
          removeCgroupsPath_ok_only env paths w7 hret1⟩

/-- Witness of C9: the unforced deletion of the stopped "ubuntu01", whose two
cgroup paths are on the host: it succeeds and both paths are gone. -/
theorem delete_succeeds_iff_all_stages_witness :
    AllStagesSucceed (fake stopped) "ubuntu01" false host stopped.paths host ∧
    (delete (fake stopped) "ubuntu01" false host).ret = .ok () ∧
    (delete (fake stopped) "ubuntu01" false host).trace.filter
        (fun ev => ev.call.isRemoval) =
      stopped.paths.map (fun q => ⟨.RemoveAll q, false⟩) ∧
    (∀ q ∈ stopped.paths, ¬ q ∈ (delete (fake stopped) "ubuntu01" false host).world) :=
  have hs : AllStagesSucceed (fake stopped) "ubuntu01" false host stopped.paths host :=
    ⟨host, host, (), host, stopped.paths, host, (), host, rfl,
      Or.inr ⟨rfl, (), host, 4242, host, rfl, rfl, rfl⟩, rfl, rfl, rfl, rfl,
      fun j q _ => by simp [fake, stopped]⟩
  have h := (delete_succeeds_iff_all_stages (fake stopped) "ubuntu01" false host).1
    stopped.paths host hs
  ⟨hs, h.1, h.2.2.1,
    h.2.2.2 (fun v q => q ∈ v)
      (fun p v _ => by simp [fake, stopped])
      (fun p q v _ hq => by
        simp only [fake, stopped, List.not_mem_nil, if_false]
        exact fun hmem => hq (List.mem_of_mem_filter hmem))⟩

/-- C10: on a non-empty argument list the command's `Action` runs `delete` on
the container IDs in argument order, each with the flag `force`.  If the
`delete` of the ID at index `k` fails with `e` and every `delete` before it
succeeded, the `Action` returns `e`, and its calls are those of the runs of
`delete` on the IDs up to index `k`, one run each (one validation call per ID,
in order) and none for a later ID.  If no `delete` fails, the `Action` returns
success and its calls are those of one run of `delete` for every ID, in
order. -/
theorem action_stops_at_first_failure
    (env : Collaborators σ ε PodStatus State Pod Spec) (args : List String)
    (force : Bool) (w : σ) (hne : args ≠ []) :
    (∀ (k : Nat) (cID : String) (e : ε),
      args[k]? = some cID →
      (∀ (j : Nat) (c : String), j < k → args[j]? = some c →
        (delete env c force (worldAfterDeletes env force (args.take j) w)).ret = .ok ()) →
      (delete env cID force (worldAfterDeletes env force (args.take k) w)).ret = .error e →
      (deleteCommand.Action env args force w).ret = .error e ∧
      (deleteCommand.Action env args force w).trace = deleteTraces env force (args.take (k + 1)) w ∧
      ((deleteCommand.Action env args force w).trace.filter (fun ev => ev.call.isValidation)).map
        (fun ev => ev.call) = (args.take (k + 1)).map Call.validContainer ∧
      (deleteCommand.Action env args force w).world =
        worldAfterDeletes env force (args.take (k + 1)) w) ∧
    ((∀ (j : Nat) (c : String), args[j]? = some c →
        (delete env c force (worldAfterDeletes env force (args.take j) w)).ret = .ok ()) →
      (deleteCommand.Action env args force w).ret = .ok () ∧
      (deleteCommand.Action env args force w).trace = deleteTraces env force args w ∧
      ((deleteCommand.Action env args force w).trace.filter (fun ev => ev.call.isValidation)).map
        (fun ev => ev.call) = args.map Call.validContainer ∧
      (deleteCommand.Action env args force w).world = worldAfterDeletes env force args w) := by
  rw [action_of_ne env args force hne]
  constructor
  · intro k cID e hk hbefore hfail
    rw [actionLoop_fail env force args w k cID e hk hbefore hfail]
    exact ⟨rfl, rfl, deleteTraces_validation_calls env force _ w, rfl⟩
  · intro hall
    rw [actionLoop_ok env force args w hall]
    exact ⟨rfl, rfl, deleteTraces_validation_calls env force _ w, rfl⟩

/-- Witness of C10: of three container IDs the second is unknown; the first is
deleted, the second fails and the third is not touched. -/
theorem action_stops_at_first_failure_witness :
    ["ubuntu01", "nginx", "ubuntu02"] ≠ [] ∧
    ((deleteCommand.Action (fake twoKnown) ["ubuntu01", "nginx", "ubuntu02"] false host).ret
        = .error "Container ID does not exist" ∧
      (deleteCommand.Action (fake twoKnown) ["ubuntu01", "nginx", "ubuntu02"] false host).trace
        = deleteTraces (fake twoKnown) false ["ubuntu01", "nginx"] host ∧
      ((deleteCommand.Action (fake twoKnown) ["ubuntu01", "nginx", "ubuntu02"] false host).trace.filter
          (fun ev => ev.call.isValidation)).map (fun ev => ev.call)
        = [.validContainer "ubuntu01", .validContainer "nginx"] ∧
      (deleteCommand.Action (fake twoKnown) ["ubuntu01", "nginx", "ubuntu02"] false host).world
        = ["/sys/fs/cgroup/cpu/other"]) :=
  ⟨by decide,
    (action_stops_at_first_failure (fake twoKnown) ["ubuntu01", "nginx", "ubuntu02"]
      false host (by decide)).1 1 "nginx" "Container ID does not exist" rfl
      (fun j c hj hc => by
        obtain rfl : j = 0 := by omega
        obtain rfl : "ubuntu01" = c := by simpa using hc
        rfl)
      rfl⟩

end Claims

end Runtime
